import Mathlib

/-!
# Verification of `h5pickle` (pickle-able, cached HDF5 file handles)

Shallow embedding of `src/h5pickle/__init__.py` and proofs about its
claims.  The embedding models:

* Python values passed as constructor arguments (`PyVal`), their
  truthiness, and `json.dumps` serialization (used by `arghash`);
* the module-level `LRUFileCache` (a `cachetools.LRUCache` subclass whose
  `popitem` tries to close the evicted value, catching `AttributeError`),
  modelled with an insertion-ordered association list `data` (Python's
  `dict`) plus a recency list `order` (cachetools' internal order,
  head = least recently used);
* `File.__new__` (the memoized factory), `File.close`,
  `File.__getitem__`, `File.__getnewargs_ex__`;
* the `Dataset` proxy (`__init__`, `__getstate__`, `__getattr__`,
  `__getitem__`) and the `Group` proxy's `__getstate__`;
* the external h5py collaborator, reduced to the operations the claims
  need: opening a file path, looking a dataset up inside a file, and
  reading from a (possibly stale) native dataset handle.

Machine-level effects are made explicit: native opens are counted in
`St.openCount` (one per `h5py.File.__init__` attempt), native closes are
recorded in `St.closedOids`, and Python object identity is modelled by
the `oid` field allocated from `St.nextOid`.
-/

set_option maxHeartbeats 1000000

/-- Python exception classes that the modelled code can raise. -/
inductive PyExn where
  | attributeError
  | typeError
  | keyError
  | valueError
  | oserror
  deriving DecidableEq, Repr

/-- Python values that can appear among `File(...)` constructor arguments.
`obj` stands for an arbitrary non-JSON-serializable Python object
(identified by an id), e.g. a set or a custom class instance.  Python
tuples and lists are distinct values but serialize identically. -/
inductive PyVal where
  | none
  | bool (b : Bool)
  | int (n : Int)
  | str (s : String)
  | list (xs : List PyVal)
  | tuple (xs : List PyVal)
  | obj (id : Nat)
  deriving Repr

/-- Python truthiness (`if skip_cache:`): `None`, `False`, `0`, `""` and
empty containers are falsy, everything else is truthy. -/
def pyTruthy : PyVal → Bool
  | .none => false
  | .bool b => b
  | .int n => n != 0
  | .str s => s != ""
  | .list xs => !xs.isEmpty
  | .tuple xs => !xs.isEmpty
  | .obj _ => true

/-- Character-level `json.dumps` escaping (structural recursion so that
it reduces definitionally). -/
def jsonEscapeChars : List Char → List Char
  | [] => []
  | c :: cs =>
    if c = '"' then '\\' :: '"' :: jsonEscapeChars cs
    else if c = '\\' then '\\' :: '\\' :: jsonEscapeChars cs
    else c :: jsonEscapeChars cs

/-- `json.dumps` escaping of the characters that can occur in the string
values in scope (`"` and `\`; other escapes concern characters that the
claims never exercise). -/
def jsonEscape (s : String) : String :=
  String.mk (jsonEscapeChars s.data)

mutual

/-- `json.dumps(v)` for a single Python value, with Python's default
separators (`", "` between items).  Returns `none` when Python raises
`TypeError` (value not JSON serializable).  Note that a tuple and a list
with the same elements produce the same JSON text, exactly as in Python. -/
def PyVal.jsonDumps : PyVal → Option String
  | .none => some ("null")
  | .bool true => some ("true")
  | .bool false => some ("false")
  | .int n => some (toString n)
  | .str s => some ("\"" ++ jsonEscape s ++ "\"")
  | .list xs =>
    match jsonSeq xs with
    | some body => some ("[" ++ body ++ "]")
    | Option.none => Option.none
  | .tuple xs =>
    match jsonSeq xs with
    | some body => some ("[" ++ body ++ "]")
    | Option.none => Option.none
  | .obj _ => Option.none

/-- The comma-separated JSON rendering of a sequence of values. -/
def jsonSeq : List PyVal → Option String
  | [] => some ("")
  | [x] => x.jsonDumps
  | x :: y :: rest =>
    match x.jsonDumps, jsonSeq (y :: rest) with
    | some a, some b => some (a ++ ", " ++ b)
    | _, _ => Option.none

end

/-- Insertion sort of keyword arguments by key, modelling the
`sort_keys=True` ordering of `json.dumps` (keyword-argument keys are
unique, so stability is irrelevant). -/
def insortKey (x : String × PyVal) : List (String × PyVal) → List (String × PyVal)
  | [] => [x]
  | y :: ys => if x.1 ≤ y.1 then x :: y :: ys else y :: insortKey x ys

/-- All dicts in scope for `sort_keys=True` are flat keyword-argument
dicts, sorted here by key. -/
def sortByKey (l : List (String × PyVal)) : List (String × PyVal) :=
  l.foldr insortKey []

/-- The body of the JSON object text for keyword arguments. -/
def kwargsSeq : List (String × PyVal) → Option String
  | [] => some ("")
  | [(k, v)] =>
    match v.jsonDumps with
    | some s => some ("\"" ++ jsonEscape k ++ "\": " ++ s)
    | Option.none => Option.none
  | (k, v) :: y :: rest =>
    match v.jsonDumps, kwargsSeq (y :: rest) with
    | some s, some b => some ("\"" ++ jsonEscape k ++ "\": " ++ s ++ ", " ++ b)
    | _, _ => Option.none

/-- `json.dumps(kwargs, sort_keys=True)`: a JSON object with keys in
sorted order.  (`\x7b`/`\x7d` are the brace characters.) -/
def kwargsDumps (kwargs : List (String × PyVal)) : Option String :=
  match kwargsSeq (sortByKey kwargs) with
  | some body => some ("\x7b" ++ body ++ "\x7d")
  | Option.none => Option.none

/-- `arghash(*args, **kwargs) = hash(json.dumps(args) + json.dumps(kwargs,
sort_keys=True))` from the source.  The model's cache key is the
concatenated JSON string itself: Python's `hash` is a deterministic
function of this string within a process, so equal strings give equal
keys; collisions of Python's string hash on distinct strings are outside
the model.  `none` models the `TypeError` that `json.dumps` raises on
non-serializable arguments. -/
def arghash (args : List PyVal) (kwargs : List (String × PyVal)) : Option String :=
  match PyVal.jsonDumps (.tuple args), kwargsDumps kwargs with
  | some a, some b => some (a ++ b)
  | _, _ => Option.none

/-- `kwargs.pop(key, False)`-style removal: the popped value (first
binding, `none` when absent) together with the dict without that key. -/
def dictPop (kwargs : List (String × PyVal)) (key : String) :
    Option PyVal × List (String × PyVal) :=
  ((kwargs.find? (fun kv => kv.1 == key)).map Prod.snd,
   kwargs.filter (fun kv => !(kv.1 == key)))

/-- `kwargs[key] = v`: replace the binding when the key is present,
otherwise append it (Python dicts keep insertion order). -/
def dictSet (kwargs : List (String × PyVal)) (key : String) (v : PyVal) :
    List (String × PyVal) :=
  if kwargs.any (fun kv => kv.1 == key) then
    kwargs.map (fun kv => if kv.1 == key then (key, v) else kv)
  else
    kwargs ++ [(key, v)]

/-- The external filesystem seen by h5py: a map from file path to the
datasets inside the file (dataset name to its stored payload).  Nested
groups are outside the scope of the claims; opening is modelled for
existing files (creation modes are out of scope). -/
abbrev FS := List (String × List (String × Int))

def fsLookup (fs : FS) (p : String) : Option (List (String × Int)) :=
  (fs.find? (fun e => e.1 == p)).map Prod.snd

/-- A live `File` object (the h5py.File subclass defined by the module).
`oid` is the Python object identity; `init_args`, `init_kwargs`,
`skip_cache` and `hsh` are the attributes stored by `File.__new__`.
`closeExn` is the behaviour of the external native close for this
handle: `none` means `h5py.File.close` succeeds; `some e` means it
raises `e` (the spec's own error taxonomy allows a failing native
close, e.g. for a busy resource). -/
structure FileObj where
  oid : Nat
  init_args : List PyVal
  init_kwargs : List (String × PyVal)
  skip_cache : PyVal
  hsh : String
  closeExn : Option PyExn
  deriving Repr

/-- The module-level `LRUFileCache(1000)`.  `data` is the underlying
`dict` (insertion-ordered key-to-value map) and `order` the recency
order kept by `cachetools.LRUCache` (head = least recently used). -/
structure LRUFileCache where
  maxsize : Nat
  data : List (String × FileObj)
  order : List String
  deriving Repr

def LRUFileCache.lookup (c : LRUFileCache) (k : String) : Option FileObj :=
  (c.data.find? (fun kv => kv.1 == k)).map Prod.snd

/-- `key in cache` (`Cache.__contains__`; does not update recency). -/
def LRUFileCache.containsKey (c : LRUFileCache) (k : String) : Bool :=
  (c.lookup k).isSome

/-- cachetools' `__update`: mark `k` most recently used. -/
def LRUFileCache.touch (c : LRUFileCache) (k : String) : LRUFileCache :=
  { c with order := c.order.erase k ++ [k] }

/-- `del cache[key]`. -/
def LRUFileCache.delitem (c : LRUFileCache) (k : String) : LRUFileCache :=
  { c with data := c.data.filter (fun kv => !(kv.1 == k)),
           order := c.order.erase k }

/-- The process-wide mutable state: the module cache plus the external
machine effects the claims observe.  `nextOid` allocates Python object
identities; `openCount` counts native open attempts
(`h5py.File.__init__` calls); `closedOids` records native closes.
All operations run under the module's reentrant lock, so the model is
a sequential state machine. -/
structure St where
  cache : LRUFileCache
  nextOid : Nat
  openCount : Nat
  closedOids : List Nat
  deriving Repr

/-- `cache[key] == self.hsh` from `File.close`: the cached value is a
`File` object and `self.hsh` is the stored hash.  h5py's `__eq__`
returns `NotImplemented` for a non-h5py operand, the reflected
comparison does too, and Python falls back to identity, so a `File`
never compares equal to its hash value. -/
def fileEqHsh (_v : FileObj) (_hsh : String) : Bool :=
  false

/-- The loop body of `File.close`:
`for key in list(cache.keys()): if cache[key] == self.hsh: del cache[key]`.
The key list is a snapshot (dict insertion order); each `cache[key]` is
`LRUCache.__getitem__`, which marks the key most recently used; the
`del` branch is dead because `fileEqHsh` is always false, but it is kept
to mirror the source.  The unreachable `none` branch (a key from the
snapshot missing from the dict) returns the cache unchanged. -/
def closeScan (c : LRUFileCache) (hsh : String) : LRUFileCache :=
  (c.data.map Prod.fst).foldl
    (fun acc key =>
      match acc.lookup key with
      | some v =>
        let acc' := acc.touch key
        if fileEqHsh v hsh then acc'.delitem key else acc'
      | none => acc)
    c

/-- `File.close`: `h5py.File.close(self)` (native close; raises
`self.closeExn` when the native close fails), then the cache scan
above.  Acquires the module lock (reentrancy makes this safe when
called from inside an eviction). -/
def File.close (self : FileObj) (st : St) : Except PyExn Unit × St :=
  match self.closeExn with
  | some e => (.error e, st)
  | none =>
    let st₁ : St := { st with closedOids := self.oid :: st.closedOids }
    (.ok (), { st₁ with cache := closeScan st₁.cache self.hsh })

/-- `LRUFileCache.popitem`: `LRUCache.popitem` removes the least
recently used entry, then `val.close()` is attempted with
`except AttributeError: pass` — only `AttributeError` (e.g. the value
not defining `close`) is swallowed; any other exception from the close
propagates.  An empty cache raises `KeyError`. -/
def LRUFileCache.popitem (st : St) : Except PyExn (String × FileObj) × St :=
  match st.cache.order with
  | [] => (.error .keyError, st)
  | k :: _ =>
    match st.cache.lookup k with
    | Option.none => (.error .keyError, st)
    | some v =>
      let st₁ : St := { st with cache := st.cache.delitem k }
      match File.close v st₁ with
      | (.ok _, st₂) => (.ok (k, v), st₂)
      | (.error .attributeError, st₂) => (.ok (k, v), st₂)
      | (.error e, st₂) => (.error e, st₂)

/-- The eviction loop of `Cache.__setitem__`:
`while currsize + 1 > maxsize: self.popitem()`.  Written with explicit
fuel; `data.length + 1` is always enough fuel, because each successful
`popitem` removes one entry and `popitem` on an empty cache raises
`KeyError`. -/
def evictLoop (st : St) : Nat → Except PyExn Unit × St
  | 0 => (.ok (), st)
  | fuel + 1 =>
    if st.cache.data.length + 1 > st.cache.maxsize then
      match LRUFileCache.popitem st with
      | (.ok _, st') => evictLoop st' fuel
      | (.error e, st') => (.error e, st')
    else (.ok (), st)

/-- `cache[key] = value` (`LRUCache.__setitem__`): when the key is
already present the value is replaced without eviction; otherwise the
eviction loop makes room and the new entry is appended; in both cases
the key is marked most recently used. -/
def cacheSet (st : St) (k : String) (v : FileObj) : Except PyExn Unit × St :=
  if st.cache.containsKey k then
    let c := { st.cache with
               data := st.cache.data.map
                 (fun (kv : String × FileObj) => if kv.1 == k then (kv.1, v) else kv) }
    (.ok (), { st with cache := c.touch k })
  else
    match evictLoop st (st.cache.data.length + 1) with
    | (.ok _, st') =>
      (.ok (), { st' with cache := { st'.cache with
                   data := st'.cache.data ++ [(k, v)],
                   order := st'.cache.order ++ [k] } })
    | (.error e, st') => (.error e, st')

/-- The native open performed by `h5py.File.__init__`: the first
positional argument must be a file path that exists; otherwise h5py
raises (`OSError` for a missing file).  Mode handling and h5py's
keyword options do not affect openability in this read-oriented model. -/
def nativeOpen (fs : FS) (args : List PyVal) : Except PyExn Unit :=
  match args.head? with
  | some (.str p) => if (fsLookup fs p).isSome then .ok () else .error .oserror
  | _ => .error .typeError

/-- `File.__new__`: pop `skip_cache` from the keyword arguments, compute
`hsh = arghash(*args, **kwargs)` (a `TypeError` from `json.dumps`
propagates before any native open), then either open a fresh handle
(always when `skip_cache` is truthy, otherwise on a cache miss) or
return the cached object.  A fresh non-bypassed handle is inserted into
the cache before `self.hsh = hsh` runs; since the cached value is the
same Python object as the returned one, the model constructs the object
with `hsh` already set.  On a cache hit, `self.hsh = hsh` mutates the
cached object, so the stored value is updated alongside.  Everything
runs under the module lock. -/
def File.new (fs : FS) (args : List PyVal) (kwargs : List (String × PyVal)) (st : St) :
    Except PyExn FileObj × St :=
  let popped := dictPop kwargs "skip_cache"
  let skip := popped.1.getD (.bool false)
  let kwargs' := popped.2
  match arghash args kwargs' with
  | Option.none => (.error .typeError, st)
  | some hsh =>
    if pyTruthy skip || !(st.cache.containsKey hsh) then
      let st₀ : St := { st with openCount := st.openCount + 1 }
      match nativeOpen fs args with
      | .error e => (.error e, st₀)
      | .ok _ =>
        let f : FileObj :=
          { oid := st.nextOid, init_args := args, init_kwargs := kwargs',
            skip_cache := skip, hsh := hsh, closeExn := none }
        let st₁ : St := { st₀ with nextOid := st.nextOid + 1 }
        if pyTruthy skip then (.ok f, st₁)
        else
          match cacheSet st₁ hsh f with
          | (.ok _, st₂) => (.ok f, st₂)
          | (.error e, st₂) => (.error e, st₂)
    else
      match st.cache.lookup hsh with
      | some v =>
        let v' : FileObj := { v with hsh := hsh }
        let c' := (st.cache.touch hsh)
        let c'' := { c' with
                     data := c'.data.map (fun kv => if kv.1 == hsh then (kv.1, v') else kv) }
        (.ok v', { st with cache := c'' })
      | Option.none => (.error .keyError, st)

/-- The file path of an open `File` (h5py's `file.id.name`): the first
positional argument; files are only ever opened with a string path
(`nativeOpen` rejects anything else). -/
def fileNameOf (f : FileObj) : String :=
  match f.init_args.head? with
  | some (.str p) => p
  | _ => ""

/-- The open mode of a `File` (h5py's `file.mode`): the `mode` keyword
argument, else the second positional argument, else h5py's read
default. -/
def fileModeOf (f : FileObj) : String :=
  match (f.init_kwargs.find? (fun kv => kv.1 == "mode")).map Prod.snd with
  | some (.str m) => m
  | _ =>
    match f.init_args.get? 1 with
    | some (.str m) => m
    | _ => "r"

/-- A live native h5py dataset handle: it belongs to the open file with
identity `fileOid`, and reading through it fails once that file has
been closed. -/
structure NativeDS where
  fileOid : Nat
  dsName : String
  data : Int
  deriving Repr

/-- The module's `Dataset` wrapper: `__init__` stores
`file_name = dataset.file.id.name`, `file_mode = dataset.file.mode`,
`dataset_name = dataset.name`, and the wrapped live `dataset`. -/
structure DatasetObj where
  file_name : String
  file_mode : String
  dataset_name : String
  dataset : NativeDS
  deriving Repr

/-- The module's `Group` wrapper state relevant to pickling: its h5py
`name` and the `file_info` back-reference to the root `File` object
(set by `File.__getitem__` / `Group.__getitem__`). -/
structure GroupObj where
  name : String
  file_info : FileObj

/-- `File.__getitem__`: `h5py.Group.__getitem__(self, name)` resolves
`name` inside the open file (h5py raises once the file has been
closed, and `KeyError` when the name is absent), and `h5py_wrap_type`
wraps the resulting native dataset in the module's `Dataset` class.
Only datasets are modelled; group results are outside the claims.
Reading the file's path from a closed or never-opened handle is
unreachable for objects produced by `File.__new__`. -/
def File.getitem (fs : FS) (self : FileObj) (name : String) (st : St) :
    Except PyExn DatasetObj :=
  if self.oid ∈ st.closedOids then .error .valueError
  else
    match fsLookup fs (fileNameOf self) with
    | Option.none => .error .valueError
    | some entries =>
      match (entries.find? (fun e => e.1 == name)).map Prod.snd with
      | Option.none => .error .keyError
      | some payload =>
        .ok { file_name := fileNameOf self, file_mode := fileModeOf self,
              dataset_name := name,
              dataset := { fileOid := self.oid, dsName := name, data := payload } }

/-- Reading an attribute of a live native dataset (`getattr(dataset,
name)` on the h5py object): fails once the backing file is closed;
otherwise the external collaborator returns a value derived from the
dataset's payload (the payload itself in this model — h5py's actual
attribute semantics belong to the external library). -/
def nativeDSGetattr (st : St) (nd : NativeDS) (_name : String) : Except PyExn PyVal :=
  if nd.fileOid ∈ st.closedOids then .error .valueError
  else .ok (.int nd.data)

/-- Element access `dataset[item]` on a live native dataset: same
liveness requirement as attribute reads. -/
def nativeDSGetitem (st : St) (nd : NativeDS) (_item : PyVal) : Except PyExn PyVal :=
  if nd.fileOid ∈ st.closedOids then .error .valueError
  else .ok (.int nd.data)

/-- `Dataset.__getattr__` (the fallback for attribute lookups that the
instance does not satisfy itself):
`self = File(self.file_name, mode=self.file_mode)[self.dataset_name]`
re-acquires the root through the memoized factory, re-resolves the
dataset, and delegates `getattr(self.dataset, name)` to the freshly
resolved native handle. -/
def Dataset.getattr (fs : FS) (d : DatasetObj) (name : String) (st : St) :
    Except PyExn PyVal × St :=
  match File.new fs [.str d.file_name] [("mode", .str d.file_mode)] st with
  | (.error e, st') => (.error e, st')
  | (.ok f, st') =>
    match File.getitem fs f d.dataset_name st' with
    | .error e => (.error e, st')
    | .ok d' => (nativeDSGetattr st' d'.dataset name, st')

/-- `Dataset.__getitem__`: same re-acquisition, then `self.dataset[item]`. -/
def Dataset.getitem (fs : FS) (d : DatasetObj) (item : PyVal) (st : St) :
    Except PyExn PyVal × St :=
  match File.new fs [.str d.file_name] [("mode", .str d.file_mode)] st with
  | (.error e, st') => (.error e, st')
  | (.ok f, st') =>
    match File.getitem fs f d.dataset_name st' with
    | .error e => (.error e, st')
    | .ok d' => (nativeDSGetitem st' d'.dataset item, st')

/-- The result of a Python attribute access on a `Dataset` proxy: either
an ordinary value or the wrapped native dataset handle (for the
`dataset` instance attribute). -/
inductive AttrVal where
  | pv (v : PyVal)
  | wrapped (nd : NativeDS)
  deriving Repr

/-- Full Python attribute-access semantics on a `Dataset` proxy:
`__getattr__` is only invoked when normal lookup fails, so the instance
attributes stored by `Dataset.__init__` (`file_name`, `file_mode`,
`dataset_name`, `dataset`) are returned directly, without any
re-acquisition; only other names take the `Dataset.__getattr__`
fallback. -/
def Dataset.attributeAccess (fs : FS) (d : DatasetObj) (name : String) (st : St) :
    Except PyExn AttrVal × St :=
  if name == "file_name" then (.ok (.pv (.str d.file_name)), st)
  else if name == "file_mode" then (.ok (.pv (.str d.file_mode)), st)
  else if name == "dataset_name" then (.ok (.pv (.str d.dataset_name)), st)
  else if name == "dataset" then (.ok (.wrapped d.dataset), st)
  else
    match Dataset.getattr fs d name st with
    | (.ok v, st') => (.ok (.pv v), st')
    | (.error e, st') => (.error e, st')

/-- `Dataset.__getstate__`: `state = self.__dict__.copy();
del state['dataset']` — the instance dict holds exactly the four
attributes set by `__init__`, so the pickled state is the three
descriptor fields. -/
def Dataset.getstate (d : DatasetObj) : List (String × PyVal) :=
  [("file_name", .str d.file_name),
   ("file_mode", .str d.file_mode),
   ("dataset_name", .str d.dataset_name)]

/-- `File.__getnewargs_ex__`: the stored constructor arguments, with the
`skip_cache` flag put back into the keyword arguments.  `File` also
defines `__getstate__` returning `None`, so this pair is the entire
pickled form of a `File`. -/
def File.getnewargs_ex (f : FileObj) : List PyVal × List (String × PyVal) :=
  (f.init_args, dictSet f.init_kwargs "skip_cache" f.skip_cache)

/-- Unpickling a `File`: the pickle protocol calls
`File.__new__(File, *args, **kwargs)` with the `__getnewargs_ex__` pair
(`File.__init__` is a no-op), i.e. reconstruction routes through the
memoized factory. -/
def File.unpickle (fs : FS) (p : List PyVal × List (String × PyVal)) (st : St) :
    Except PyExn FileObj × St :=
  File.new fs p.1 p.2 st

/-- `Group.__getstate__`: `{'name': self.name, 'file': self.file_info}` —
the state references the root `File` object itself. -/
def Group.getstate (g : GroupObj) : String × FileObj :=
  (g.name, g.file_info)

/-- The serialized form of a `Group`: pickling the state dict above
recursively reduces the `File` member through `File.__getnewargs_ex__`
(whose `__getstate__` returns `None`), so only descriptor data crosses
the serialization boundary. -/
def Group.pickled (g : GroupObj) : String × (List PyVal × List (String × PyVal)) :=
  (g.name, File.getnewargs_ex g.file_info)

/-! ## Concrete example data (used by witnesses and counterexamples) -/

/-- An example filesystem: one HDF5 file `a.h5` holding one dataset `d`
with payload `7`. -/
def fsEx : FS := [("a.h5", [("d", 7)])]

/-- The initial module state: the fresh `LRUFileCache(1000)` and no
allocations, opens, or closes yet. -/
def st0 : St :=
  { cache := { maxsize := 1000, data := [], order := [] },
    nextOid := 0, openCount := 0, closedOids := [] }

/-- Placeholder object for `Option.getD` projections. -/
def dummyFile : FileObj :=
  { oid := 0, init_args := [], init_kwargs := [], skip_cache := .bool false,
    hsh := "", closeExn := Option.none }

/-- The first example run: `File('a.h5')` from the initial state. -/
def run1 : Except PyExn FileObj × St := File.new fsEx [.str "a.h5"] [] st0

def f1ex : FileObj := run1.1.toOption.getD dummyFile

def st1ex : St := run1.2

/-- The state after `f1ex.close()`. -/
def st2ex : St := (File.close f1ex st1ex).2

/-- A cached handle whose native close succeeds. -/
def okFile : FileObj :=
  { oid := 3, init_args := [.str "a.h5"], init_kwargs := [],
    skip_cache := .bool false, hsh := "K0", closeExn := Option.none }

/-- A state whose full (capacity-1) cache holds `okFile`. -/
def stOk : St :=
  { cache := { maxsize := 1, data := [("K0", okFile)], order := ["K0"] },
    nextOid := 4, openCount := 1, closedOids := [] }

/-- A cached handle whose native close raises `OSError` (the external
collaborator may fail to close, e.g. a busy resource). -/
def badFile : FileObj :=
  { oid := 3, init_args := [.str "a.h5"], init_kwargs := [],
    skip_cache := .bool false, hsh := "K0", closeExn := some .oserror }

/-- A state whose full (capacity-1) cache holds `badFile`. -/
def stBad : St :=
  { cache := { maxsize := 1, data := [("K0", badFile)], order := ["K0"] },
    nextOid := 4, openCount := 1, closedOids := [] }

/-- A fresh handle about to be inserted into `stBad`'s cache. -/
def newFile : FileObj :=
  { oid := 4, init_args := [.str "a.h5"], init_kwargs := [],
    skip_cache := .bool false, hsh := "K1", closeExn := Option.none }

/-- A dataset proxy whose originating root handle (identity 99) has
been evicted and natively closed. -/
def staleDS : DatasetObj :=
  { file_name := "a.h5", file_mode := "r", dataset_name := "d",
    dataset := { fileOid := 99, dsName := "d", data := 7 } }

/-- A healthy state in which identity 99 is already closed and the
cache is empty (the proxy's root was evicted). -/
def stEvicted : St :=
  { cache := { maxsize := 1000, data := [], order := [] },
    nextOid := 100, openCount := 5, closedOids := [99] }

/-- The cache key under which a `Dataset` proxy's root re-acquisition
`File(file_name, mode=file_mode)` is looked up. -/
def rootKey (d : DatasetObj) : String :=
  (arghash [.str d.file_name] [("mode", .str d.file_mode)]).getD ""

/-- A bypassed example run: `File('a.h5', skip_cache=True)`. -/
def runSkip : Except PyExn FileObj × St :=
  File.new fsEx [.str "a.h5"] [("skip_cache", .bool true)] st0

def bSkipEx : FileObj := runSkip.1.toOption.getD dummyFile

def stSkipEx : St := runSkip.2

/-- The cached construction following the bypassed one (same
descriptor: the keyword arguments with `skip_cache` popped). -/
def run7 : Except PyExn FileObj × St :=
  File.new fsEx [.str "a.h5"]
    ((dictPop [("skip_cache", PyVal.bool true)] "skip_cache").2) stSkipEx

def g7ex : FileObj := run7.1.toOption.getD dummyFile

/-- Second example acquisition with a different descriptor (an explicit
`mode`), from the state after `run1`. -/
def runB : Except PyExn FileObj × St :=
  File.new fsEx [.str "a.h5"] [("mode", .str "r")] st1ex

def fBex : FileObj := runB.1.toOption.getD dummyFile

/-- Two distinct descriptors that collide at the JSON step: a tuple and
a list with the same elements serialize identically. -/
def runT : Except PyExn FileObj × St :=
  File.new fsEx [.str "a.h5"] [("x", .tuple [.int 1])] st0

def fTex : FileObj := runT.1.toOption.getD dummyFile

def runL : Except PyExn FileObj × St :=
  File.new fsEx [.str "a.h5"] [("x", .list [.int 1])] runT.2

def fLex : FileObj := runL.1.toOption.getD dummyFile

/-! ## Association-list facts about the cache -/

theorem lookup_isSome_iff (c : LRUFileCache) (k : String) :
    (c.lookup k).isSome ↔ k ∈ c.data.map Prod.fst := by
  unfold LRUFileCache.lookup
  rcases hf : c.data.find? (fun kv => kv.1 == k) with _ | kv
  · rw [hf]
    simp only [Option.map_none', Option.isSome_none, Bool.false_eq_true, false_iff]
    intro hmem
    obtain ⟨x, hx, hxk⟩ := List.mem_map.mp hmem
    have := List.find?_eq_none.mp hf x hx
    simp [hxk] at this
  · rw [hf]
    simp only [Option.map_some', Option.isSome_some, true_iff]
    have hk : kv.1 = k := by simpa using List.find?_some hf
    exact hk ▸ List.mem_map.mpr ⟨kv, List.mem_of_find?_eq_some hf, rfl⟩

theorem lookup_mem {c : LRUFileCache} {k : String} {v : FileObj}
    (h : c.lookup k = some v) : (k, v) ∈ c.data := by
  unfold LRUFileCache.lookup at h
  rcases hf : c.data.find? (fun kv => kv.1 == k) with _ | kv
  · rw [hf] at h; simp at h
  · rw [hf] at h
    simp only [Option.map_some', Option.some.injEq] at h
    have hm := List.mem_of_find?_eq_some hf
    have hk : kv.1 = k := by simpa using List.find?_some hf
    have : kv = (k, v) := by
      cases kv
      simp_all
    rwa [this] at hm

theorem lookup_of_mem_nodup {data : List (String × FileObj)} {k : String} {v : FileObj}
    (hN : (data.map Prod.fst).Nodup) (hm : (k, v) ∈ data) :
    (data.find? (fun kv => kv.1 == k)).map Prod.snd = some v := by
  induction data with
  | nil => cases hm
  | cons kv rest ih =>
    simp only [List.map_cons, List.nodup_cons] at hN
    rcases List.mem_cons.mp hm with h | h
    · subst h
      simp [List.find?]
    · have hne : ¬(kv.1 == k) = true := by
        intro hb
        exact hN.1 (by
          have : kv.1 = k := by simpa using hb
          subst this
          exact List.mem_map.mpr ⟨(kv.1, v), h, rfl⟩)
      simp only [List.find?, hne]
      exact ih hN.2 h

theorem lookup_none_of_filter {data : List (String × FileObj)} {k k' : String}
    (h : (data.find? (fun kv => kv.1 == k)).map Prod.snd = Option.none) :
    ((data.filter (fun kv => !(kv.1 == k'))).find? (fun kv => kv.1 == k)).map Prod.snd
      = Option.none := by
  rcases hf : (data.filter (fun kv => !(kv.1 == k'))).find? (fun kv => kv.1 == k) with _ | kv
  · rw [hf]; rfl
  · exfalso
    have hm := List.mem_of_find?_eq_some hf
    have hk := List.find?_some hf
    have hm' := List.mem_of_mem_filter hm
    rcases hn : data.find? (fun kv => kv.1 == k) with _ | kv'
    · have := List.find?_eq_none.mp hn kv hm'
      exact this hk
    · rw [hn] at h
      simp at h

/-! ## The state invariant -/

/-- What holds of every cache entry in a healthy (reachable) state: the
value is stored under its own hash key, was created cache-managed by
`File.__new__` (stored arguments re-hash to its key, falsy
`skip_cache`, and no stray `skip_cache` keyword argument), has not been
natively closed, and its native close succeeds. -/
def EntryOK (st : St) (kv : String × FileObj) : Prop :=
  kv.2.hsh = kv.1 ∧
  kv.2.closeExn = Option.none ∧
  kv.2.oid < st.nextOid ∧
  kv.2.oid ∉ st.closedOids ∧
  arghash kv.2.init_args kv.2.init_kwargs = some kv.2.hsh ∧
  pyTruthy kv.2.skip_cache = false ∧
  "skip_cache" ∉ kv.2.init_kwargs.map Prod.fst

instance (st : St) (kv : String × FileObj) : Decidable (EntryOK st kv) := by
  unfold EntryOK; infer_instance

/-- The state invariant maintained by the module's operations: cache
keys are unique, the recency order is a permutation of the keys, every
entry is `EntryOK`, distinct entries are distinct Python objects, and
every closed identity was allocated. -/
def Healthy (st : St) : Prop :=
  (st.cache.data.map Prod.fst).Nodup ∧
  st.cache.order.Perm (st.cache.data.map Prod.fst) ∧
  (∀ kv ∈ st.cache.data, EntryOK st kv) ∧
  (st.cache.data.map (fun kv => kv.2.oid)).Nodup ∧
  (∀ o ∈ st.closedOids, o < st.nextOid)

instance (st : St) : Decidable (Healthy st) := by
  unfold Healthy; infer_instance

/-! ## Lemmas about the cache operations -/

theorem touch_data (c : LRUFileCache) (k : String) : (c.touch k).data = c.data := rfl

theorem touch_perm {c : LRUFileCache} {k : String} (h : k ∈ c.order) :
    (c.touch k).order.Perm c.order := by
  unfold LRUFileCache.touch
  have h1 : (c.order.erase k ++ [k]).Perm ([k] ++ c.order.erase k) :=
    List.perm_append_comm
  have h2 : (k :: c.order.erase k).Perm c.order := (List.perm_cons_erase h).symm
  exact h1.trans h2

theorem closeScan_aux (hsh : String) (ks : List String) (c : LRUFileCache)
    (hord : c.order.Perm (c.data.map Prod.fst))
    (hks : ∀ k ∈ ks, k ∈ c.data.map Prod.fst) :
    (ks.foldl
      (fun acc key =>
        match acc.lookup key with
        | some v =>
          let acc' := acc.touch key
          if fileEqHsh v hsh then acc'.delitem key else acc'
        | none => acc)
      c).data = c.data ∧
    (ks.foldl
      (fun acc key =>
        match acc.lookup key with
        | some v =>
          let acc' := acc.touch key
          if fileEqHsh v hsh then acc'.delitem key else acc'
        | none => acc)
      c).order.Perm (c.data.map Prod.fst) ∧
    (ks.foldl
      (fun acc key =>
        match acc.lookup key with
        | some v =>
          let acc' := acc.touch key
          if fileEqHsh v hsh then acc'.delitem key else acc'
        | none => acc)
      c).maxsize = c.maxsize := by
  induction ks generalizing c with
  | nil => exact ⟨rfl, hord, rfl⟩
  | cons k ks ih =>
    simp only [List.foldl_cons]
    have hk : k ∈ c.data.map Prod.fst := hks k (List.mem_cons_self _ _)
    have hkord : k ∈ c.order := hord.mem_iff.mpr hk
    rcases hl : c.lookup k with _ | v
    · exact ih c hord (fun k' hk' => hks k' (List.mem_cons_of_mem _ hk'))
    · simp only [hl, fileEqHsh, if_false]
      have hperm : (c.touch k).order.Perm ((c.touch k).data.map Prod.fst) := by
        rw [touch_data]
        exact (touch_perm hkord).trans hord
      have := ih (c.touch k) hperm
        (fun k' hk' => by rw [touch_data]; exact hks k' (List.mem_cons_of_mem _ hk'))
      rw [touch_data] at this
      exact this

theorem closeScan_spec (c : LRUFileCache) (hsh : String)
    (hord : c.order.Perm (c.data.map Prod.fst)) :
    (closeScan c hsh).data = c.data ∧
    (closeScan c hsh).order.Perm (c.data.map Prod.fst) ∧
    (closeScan c hsh).maxsize = c.maxsize := by
  exact closeScan_aux hsh (c.data.map Prod.fst) c hord (fun _ h => h)

theorem map_fst_filter_ne (l : List (String × FileObj)) (k : String)
    (hN : (l.map Prod.fst).Nodup) :
    (l.filter (fun kv => !(kv.1 == k))).map Prod.fst = (l.map Prod.fst).erase k := by
  induction l with
  | nil => rfl
  | cons kv rest ih =>
    simp only [List.map_cons, List.nodup_cons] at hN
    by_cases hk : kv.1 = k
    · subst hk
      rw [List.filter_cons_of_neg (by simp)]
      rw [List.map_cons, List.erase_cons_head]
      rw [List.filter_eq_self.mpr]
      intro a ha
      simp only [Bool.not_eq_eq_eq_not, Bool.not_true, beq_eq_false_iff_ne, ne_eq]
      intro haeq
      exact hN.1 (haeq ▸ List.mem_map.mpr ⟨a, ha, rfl⟩)
    · rw [List.filter_cons_of_pos (by simp [hk])]
      rw [List.map_cons, List.map_cons, List.erase_cons_tail (by simp [hk])]
      rw [ih hN.2]

theorem nodup_filter_map_fst {l : List (String × FileObj)} {k : String}
    (hN : (l.map Prod.fst).Nodup) :
    ((l.filter (fun kv => !(kv.1 == k))).map Prod.fst).Nodup := by
  rw [map_fst_filter_ne l k hN]
  exact hN.erase k

/-- `popitem` on a healthy, non-empty cache: the head of the recency
order is evicted, its native close succeeds and is recorded, and the
state stays healthy. -/
theorem popitem_ok (st : St) (hH : Healthy st) (hne : st.cache.data ≠ []) :
    ∃ k v st', LRUFileCache.popitem st = (.ok (k, v), st') ∧
      Healthy st' ∧
      st'.cache.data = st.cache.data.filter (fun kv => !(kv.1 == k)) ∧
      st'.cache.maxsize = st.cache.maxsize ∧
      st'.nextOid = st.nextOid ∧
      st'.openCount = st.openCount ∧
      st'.closedOids = v.oid :: st.closedOids ∧
      (k, v) ∈ st.cache.data ∧
      st'.cache.data.length + 1 = st.cache.data.length := by
  obtain ⟨hND, hPerm, hEnt, hOid, hClos⟩ := hH
  have horder : st.cache.order ≠ [] := by
    intro h0
    have := hPerm.length_eq
    rw [h0] at this
    simp only [List.length_nil, List.length_map] at this
    exact hne (List.eq_nil_of_length_eq_zero this.symm)
  rcases ho : st.cache.order with _ | ⟨k, tl⟩
  · exact absurd ho horder
  have hkmem : k ∈ st.cache.data.map Prod.fst := by
    have : k ∈ st.cache.order := by rw [ho]; exact List.mem_cons_self _ _
    exact hPerm.mem_iff.mp this
  have hlook : (st.cache.lookup k).isSome := (lookup_isSome_iff _ _).mpr hkmem
  rcases hl : st.cache.lookup k with _ | v
  · rw [hl] at hlook; cases hlook
  have hmem : (k, v) ∈ st.cache.data := lookup_mem hl
  have hEv : EntryOK st (k, v) := hEnt _ hmem
  obtain ⟨hhsh, hcl, hoidlt, hoidnc, hhash, hskip, hnosk⟩ := hEv
  have hcl' : v.closeExn = Option.none := hcl
  have hoidlt' : v.oid < st.nextOid := hoidlt
  -- the state after `LRUCache.popitem` removed the entry
  set st₁ : St := { st with cache := st.cache.delitem k } with hst₁
  have hdata₁ : st₁.cache.data = st.cache.data.filter (fun kv => !(kv.1 == k)) := rfl
  have hND₁ : (st₁.cache.data.map Prod.fst).Nodup := nodup_filter_map_fst hND
  have hPerm₁ : st₁.cache.order.Perm (st₁.cache.data.map Prod.fst) := by
    rw [hdata₁, map_fst_filter_ne _ _ hND]
    have : st₁.cache.order = st.cache.order.erase k := rfl
    rw [this]
    exact hPerm.erase k
  -- `val.close()` = `File.close v st₁`, whose native close succeeds
  have hCS := closeScan_spec st₁.cache v.hsh hPerm₁
  refine ⟨k, v,
    { st₁ with
      closedOids := v.oid :: st₁.closedOids,
      cache := closeScan st₁.cache v.hsh },
    ?_, ?_, ?_, ?_, ?_, ?_, ?_, ?_, ?_⟩
  · -- the run of `popitem` itself
    simp only [LRUFileCache.popitem, ho, hl, File.close, hcl']
  · -- the resulting state is healthy
    have hdata' : (closeScan st₁.cache v.hsh).data = st₁.cache.data := hCS.1
    refine ⟨?_, ?_, ?_, ?_, ?_⟩
    · simpa [hdata'] using hND₁
    · simpa [hdata'] using hCS.2.1
    · intro kv hkv
      rw [hdata', hdata₁] at hkv
      have hkvD : kv ∈ st.cache.data := List.mem_of_mem_filter hkv
      have hkvK : ¬(kv.1 == k) = true := by
        have := List.of_mem_filter hkv
        simpa using this
      obtain ⟨e1, e2, e3, e4, e5, e6, e7⟩ := hEnt _ hkvD
      refine ⟨e1, e2, e3, ?_, e5, e6, e7⟩
      intro hmem'
      rcases List.mem_cons.mp hmem' with heq | hmem''
      · -- kv's object would be the evicted object, but their keys differ
        have : kv = (k, v) :=
          List.inj_on_of_nodup_map hOid hkvD hmem heq
        rw [this] at hkvK
        simp at hkvK
      · exact e4 hmem''
    · have : (closeScan st₁.cache v.hsh).data.map (fun kv => kv.2.oid)
          = st₁.cache.data.map (fun kv => kv.2.oid) := by rw [hdata']
      rw [this]
      exact hOid.sublist (List.Sublist.map _ (List.filter_sublist _))
    · intro o hmem'
      rcases List.mem_cons.mp hmem' with heq | hmem''
      · exact heq ▸ hoidlt'
      · exact hClos o hmem''
  · simpa [hdata₁] using hCS.1
  · rw [hCS.2.2]
    rfl
  · rfl
  · rfl
  · rfl
  · exact hmem
  · show (closeScan st₁.cache v.hsh).data.length + 1 = st.cache.data.length
    have h1 : (closeScan st₁.cache v.hsh).data.length = st₁.cache.data.length := by
      rw [hCS.1]
    have hmap : st₁.cache.data.map Prod.fst = (st.cache.data.map Prod.fst).erase k := by
      rw [hdata₁]
      exact map_fst_filter_ne _ _ hND
    have hlen := congrArg List.length hmap
    rw [List.length_map, List.length_erase_of_mem hkmem, List.length_map] at hlen
    have hpos : 0 < st.cache.data.length := by
      cases hq : st.cache.data with
      | nil => exact absurd hq hne
      | cons a l => simp
    omega

/-- The eviction loop on a healthy state with enough fuel terminates
successfully, leaves a healthy state with room for one more entry, and
only ever removes entries (closing exactly the removed ones). -/
theorem evictLoop_ok (fuel : Nat) (st : St) (hH : Healthy st)
    (hcap : 1 ≤ st.cache.maxsize) (hfuel : st.cache.data.length < fuel) :
    ∃ st', evictLoop st fuel = (.ok (), st') ∧ Healthy st' ∧
      st'.cache.data.length < st.cache.maxsize ∧
      st'.cache.maxsize = st.cache.maxsize ∧
      st'.nextOid = st.nextOid ∧
      st'.openCount = st.openCount ∧
      st'.cache.data.Sublist st.cache.data ∧
      (∀ o ∈ st'.closedOids,
        o ∈ st.closedOids ∨ o ∈ st.cache.data.map (fun kv => kv.2.oid)) := by
  induction fuel generalizing st with
  | zero => omega
  | succ fuel ih =>
    by_cases hc : st.cache.data.length + 1 > st.cache.maxsize
    · have hne : st.cache.data ≠ [] := by
        intro h0
        rw [h0] at hc
        simp only [List.length_nil] at hc
        omega
      obtain ⟨k, v, st₁, hpop, hH₁, hdata₁, hms₁, hnx₁, hoc₁, hcl₁, hmem₁, hlen₁⟩ :=
        popitem_ok st hH hne
      have hms₁' : 1 ≤ st₁.cache.maxsize := by rw [hms₁]; exact hcap
      have hfuel₁ : st₁.cache.data.length < fuel := by omega
      obtain ⟨st', heq, hH', hroom, hms', hnx', hoc', hsub', hclos'⟩ :=
        ih st₁ hH₁ hms₁' hfuel₁
      refine ⟨st', ?_, hH', ?_, ?_, ?_, ?_, ?_, ?_⟩
      · simp only [evictLoop, if_pos hc, hpop]
        exact heq
      · rw [hms₁] at hroom; exact hroom
      · rw [hms', hms₁]
      · rw [hnx', hnx₁]
      · rw [hoc', hoc₁]
      · have h1 : st₁.cache.data.Sublist st.cache.data := by
          rw [hdata₁]; exact List.filter_sublist _
        exact hsub'.trans h1
      · intro o ho
        rcases hclos' o ho with h | h
        · rw [hcl₁] at h
          rcases List.mem_cons.mp h with h' | h'
          · exact Or.inr (h' ▸ List.mem_map.mpr ⟨(k, v), hmem₁, rfl⟩)
          · exact Or.inl h'
        · right
          obtain ⟨kv, hkv, hkvo⟩ := List.mem_map.mp h
          have : kv ∈ st.cache.data := by
            rw [hdata₁] at hkv
            exact List.mem_of_mem_filter hkv
          exact List.mem_map.mpr ⟨kv, this, hkvo⟩
    · refine ⟨st, ?_, hH, by omega, rfl, rfl, rfl, List.Sublist.refl _, fun o ho => Or.inl ho⟩
      simp only [evictLoop, if_neg hc]

theorem find?_append_none {α : Type} {p : α → Bool} {l₁ l₂ : List α}
    (h : l₁.find? p = Option.none) : (l₁ ++ l₂).find? p = l₂.find? p := by
  induction l₁ with
  | nil => rfl
  | cons a l ih =>
    rcases hp : p a with _ | _
    · simp only [List.find?] at h
      rw [hp] at h
      simp only [List.cons_append, List.find?, hp]
      exact ih h
    · simp only [List.find?, hp] at h
      cases h

/-- Inserting a fresh key into a healthy cache with positive capacity
succeeds, stores the value retrievably, and closes only evicted
entries. -/
theorem cacheSet_fresh (st : St) (k : String) (v : FileObj) (hH : Healthy st)
    (hcap : 1 ≤ st.cache.maxsize)
    (hnc : st.cache.containsKey k = false)
    (hhsh : v.hsh = k) (hclv : v.closeExn = Option.none)
    (hvoid : v.oid < st.nextOid)
    (hvclosed : v.oid ∉ st.closedOids)
    (hvnew : v.oid ∉ st.cache.data.map (fun kv => kv.2.oid))
    (hvhash : arghash v.init_args v.init_kwargs = some v.hsh)
    (hvskip : pyTruthy v.skip_cache = false)
    (hvnosk : "skip_cache" ∉ v.init_kwargs.map Prod.fst) :
    ∃ st', cacheSet st k v = (.ok (), st') ∧ Healthy st' ∧
      st'.cache.lookup k = some v ∧
      st'.cache.maxsize = st.cache.maxsize ∧
      st'.nextOid = st.nextOid ∧
      st'.openCount = st.openCount ∧
      (∀ o ∈ st'.closedOids,
        o ∈ st.closedOids ∨ o ∈ st.cache.data.map (fun kv => kv.2.oid)) := by
  obtain ⟨st₁, heq, hH₁, hroom, hms₁, hnx₁, hoc₁, hsub₁, hclos₁⟩ :=
    evictLoop_ok (st.cache.data.length + 1) st hH hcap (by omega)
  obtain ⟨hND₁, hPerm₁, hEnt₁, hOid₁, hBound₁⟩ := hH₁
  have hknot : k ∉ st.cache.data.map Prod.fst := by
    intro hk
    have := (lookup_isSome_iff st.cache k).mpr hk
    rw [LRUFileCache.containsKey] at hnc
    rw [hnc] at this
    cases this
  have hknot₁ : k ∉ st₁.cache.data.map Prod.fst := by
    intro hk
    exact hknot ((hsub₁.map Prod.fst).mem hk)
  have hfind₁ : st₁.cache.data.find? (fun kv => kv.1 == k) = Option.none := by
    rcases hf : st₁.cache.data.find? (fun kv => kv.1 == k) with _ | kv
    · exact hf
    · exfalso
      have hm := List.mem_of_find?_eq_some hf
      have hkk : kv.1 = k := by simpa using List.find?_some hf
      exact hknot₁ (hkk ▸ List.mem_map.mpr ⟨kv, hm, rfl⟩)
  refine ⟨{ st₁ with cache := { st₁.cache with
              data := st₁.cache.data ++ [(k, v)],
              order := st₁.cache.order ++ [k] } }, ?_, ?_, ?_, ?_, ?_, ?_, ?_⟩
  · simp only [cacheSet, hnc, Bool.false_eq_true, if_false, heq]
  · refine ⟨?_, ?_, ?_, ?_, ?_⟩
    · rw [List.map_append]
      rw [List.nodup_append]
      exact ⟨hND₁, List.nodup_singleton _, by
        intro a ha hb
        have : a = k := by simpa using hb
        exact hknot₁ (this ▸ ha)⟩
    · rw [List.map_append]
      exact hPerm₁.append_right [k]
    · intro kv hkv
      rcases List.mem_append.mp hkv with h | h
      · obtain ⟨e1, e2, e3, e4, e5, e6, e7⟩ := hEnt₁ _ h
        exact ⟨e1, e2, e3, e4, e5, e6, e7⟩
      · have : kv = (k, v) := by simpa using h
        subst this
        refine ⟨hhsh, hclv, ?_, ?_, hvhash, hvskip, hvnosk⟩
        · show v.oid < st₁.nextOid
          rw [hnx₁]; exact hvoid
        · show v.oid ∉ st₁.closedOids
          intro hin
          rcases hclos₁ _ hin with h' | h'
          · exact hvclosed h'
          · exact hvnew h'
    · rw [List.map_append]
      rw [List.nodup_append]
      refine ⟨hOid₁, List.nodup_singleton _, ?_⟩
      intro a ha hb
      have hav : a = v.oid := by simpa using hb
      subst hav
      obtain ⟨kv, hkv, hkvo⟩ := List.mem_map.mp ha
      exact hvnew (List.mem_map.mpr ⟨kv, (hsub₁.mem hkv), hkvo⟩)
    · intro o ho
      exact hBound₁ o ho
  · show ((st₁.cache.data ++ [(k, v)]).find? (fun kv => kv.1 == k)).map Prod.snd
        = some v
    rw [find?_append_none hfind₁]
    simp [List.find?]
  · exact hms₁
  · exact hnx₁
  · exact hoc₁
  · exact hclos₁

theorem closeScan_data (c : LRUFileCache) (hsh : String) :
    (closeScan c hsh).data = c.data := by
  unfold closeScan
  generalize c.data.map Prod.fst = ks
  induction ks generalizing c with
  | nil => rfl
  | cons k ks ih =>
    simp only [List.foldl_cons]
    rcases hl : c.lookup k with _ | v
    · exact ih c
    · simp only [fileEqHsh, if_false]
      exact ih (c.touch k)

theorem closeScan_maxsize (c : LRUFileCache) (hsh : String) :
    (closeScan c hsh).maxsize = c.maxsize := by
  unfold closeScan
  generalize c.data.map Prod.fst = ks
  induction ks generalizing c with
  | nil => rfl
  | cons k ks ih =>
    simp only [List.foldl_cons]
    rcases hl : c.lookup k with _ | v
    · exact ih c
    · simp only [fileEqHsh, if_false]
      exact ih (c.touch k)

theorem popitem_filter {st : St} {k : String} {v : FileObj} {st' : St}
    (h : LRUFileCache.popitem st = (.ok (k, v), st')) :
    st'.cache.data = st.cache.data.filter (fun kv => !(kv.1 == k)) ∧
    st'.cache.maxsize = st.cache.maxsize ∧
    st'.nextOid = st.nextOid ∧
    st'.openCount = st.openCount := by
  unfold LRUFileCache.popitem File.close at h
  rcases ho : st.cache.order with _ | ⟨k₀, tl⟩
  · rw [ho] at h; cases h
  rw [ho] at h
  dsimp only at h
  rcases hl : st.cache.lookup k₀ with _ | v₀
  · rw [hl] at h; cases h
  rw [hl] at h
  dsimp only at h
  rcases hc : v₀.closeExn with _ | e
  · rw [hc] at h
    dsimp only at h
    simp only [Prod.mk.injEq, Except.ok.injEq] at h
    obtain ⟨⟨hk, hv⟩, hst⟩ := h
    subst hk
    rw [← hst]
    exact ⟨closeScan_data _ _, closeScan_maxsize _ _, rfl, rfl⟩
  · rw [hc] at h
    cases e
    · dsimp only at h
      simp only [Prod.mk.injEq, Except.ok.injEq] at h
      obtain ⟨⟨hk, hv⟩, hst⟩ := h
      subst hk
      rw [← hst]
      exact ⟨rfl, rfl, rfl, rfl⟩
    all_goals (dsimp only at h; simp at h)

theorem find?_filter_none {α : Type} {p q : α → Bool} {l : List α}
    (h : l.find? p = Option.none) : (l.filter q).find? p = Option.none := by
  rcases hf : (l.filter q).find? p with _ | a
  · rfl
  · exfalso
    have hm := List.mem_of_mem_filter (List.mem_of_find?_eq_some hf)
    exact (List.find?_eq_none.mp h a hm) (List.find?_some hf)

theorem evictLoop_find_none {fuel : Nat} {st st' : St} {u : Unit} {key : String}
    (h : evictLoop st fuel = (.ok u, st'))
    (hn : st.cache.data.find? (fun kv => kv.1 == key) = Option.none) :
    st'.cache.data.find? (fun kv => kv.1 == key) = Option.none ∧
    st'.cache.maxsize = st.cache.maxsize ∧
    st'.nextOid = st.nextOid ∧
    st'.openCount = st.openCount := by
  induction fuel generalizing st with
  | zero =>
    simp only [evictLoop, Prod.mk.injEq] at h
    rw [← h.2]
    exact ⟨hn, rfl, rfl, rfl⟩
  | succ fuel ih =>
    by_cases hc : st.cache.data.length + 1 > st.cache.maxsize
    · simp only [evictLoop, if_pos hc] at h
      rcases hpop : LRUFileCache.popitem st with ⟨r, st₁⟩
      rw [hpop] at h
      rcases r with e | a
      · dsimp only at h
        simp at h
      · rcases a with ⟨k₀, v₀⟩
        dsimp only at h
        obtain ⟨hd₁, hm₁, hx₁, ho₁⟩ := popitem_filter hpop
        have hn₁ : st₁.cache.data.find? (fun kv => kv.1 == key) = Option.none := by
          rw [hd₁]
          exact find?_filter_none hn
        obtain ⟨a1, a2, a3, a4⟩ := ih h hn₁
        exact ⟨a1, by rw [a2, hm₁], by rw [a3, hx₁], by rw [a4, ho₁]⟩
    · simp only [evictLoop, if_neg hc, Prod.mk.injEq] at h
      rw [← h.2]
      exact ⟨hn, rfl, rfl, rfl⟩

theorem lookup_none_of_containsKey_false {c : LRUFileCache} {k : String}
    (h : c.containsKey k = false) :
    c.data.find? (fun kv => kv.1 == k) = Option.none := by
  rcases hf : c.data.find? (fun kv => kv.1 == k) with _ | kv
  · exact hf
  · exfalso
    unfold LRUFileCache.containsKey LRUFileCache.lookup at h
    rw [hf] at h
    cases h

theorem cacheSet_lookup {st : St} {k : String} {v : FileObj} {u : Unit} {st' : St}
    (hnc : st.cache.containsKey k = false)
    (h : cacheSet st k v = (.ok u, st')) :
    st'.cache.lookup k = some v ∧
    st'.cache.maxsize = st.cache.maxsize ∧
    st'.nextOid = st.nextOid ∧
    st'.openCount = st.openCount := by
  unfold cacheSet at h
  simp only [hnc, Bool.false_eq_true, if_false] at h
  rcases heq : evictLoop st (st.cache.data.length + 1) with ⟨r, st₁⟩
  rw [heq] at h
  rcases r with e | a
  · dsimp only at h
    simp at h
  · dsimp only at h
    simp only [Prod.mk.injEq] at h
    obtain ⟨a1, a2, a3, a4⟩ := evictLoop_find_none heq (lookup_none_of_containsKey_false hnc)
    rw [← h.2]
    refine ⟨?_, a2, a3, a4⟩
    show ((st₁.cache.data ++ [(k, v)]).find? (fun kv => kv.1 == k)).map Prod.snd = some v
    rw [find?_append_none a1]
    simp [List.find?]

theorem lookup_map_replace {l : List (String × FileObj)} {hsh : String} {v' : FileObj}
    (h : (l.find? (fun kv => kv.1 == hsh)).isSome) :
    ((l.map (fun kv => if kv.1 == hsh then (kv.1, v') else kv)).find?
        (fun kv => kv.1 == hsh)).map Prod.snd = some v' := by
  induction l with
  | nil => simp [List.find?] at h
  | cons kv rest ih =>
    rcases hkv : (kv.1 == hsh) with _ | _
    · simp only [List.find?, hkv] at h
      simp only [List.map_cons, hkv, Bool.false_eq_true, if_false, List.find?]
      exact ih h
    · simp [List.find?, hkv]

/-- The cache-hit run of `File.__new__` (`skip_cache` falsy and the key
present): the cached object is returned with its `hsh` attribute
re-assigned (the same Python object, so the stored entry is updated
alongside) and marked most recently used; no native open occurs. -/
theorem new_hit (fs : FS) (a : List PyVal) (k : List (String × PyVal)) (st : St)
    (hskip : pyTruthy ((dictPop k "skip_cache").1.getD (.bool false)) = false)
    {hsh : String} (harg : arghash a (dictPop k "skip_cache").2 = some hsh)
    {v : FileObj} (hl : st.cache.lookup hsh = some v) :
    File.new fs a k st =
      (.ok { v with hsh := hsh },
       { st with cache :=
           { st.cache.touch hsh with
             data := (st.cache.touch hsh).data.map
               (fun kv => if kv.1 == hsh then (kv.1, { v with hsh := hsh }) else kv) } }) := by
  have hck : st.cache.containsKey hsh = true := by
    unfold LRUFileCache.containsKey
    rw [hl]
    rfl
  simp only [File.new, harg, hskip, hck, Bool.not_true, Bool.false_or,
    Bool.false_eq_true, if_false, hl]

/-- The bypass run of `File.__new__` (`skip_cache` truthy): a fresh
object is allocated and natively opened, the cache is untouched, and
the `skip_cache` flag and key are stored on the object. -/
theorem new_skip_spec {fs : FS} {a : List PyVal} {k : List (String × PyVal)} {st : St}
    {f : FileObj} {st₁ : St}
    (hskip : pyTruthy ((dictPop k "skip_cache").1.getD (.bool false)) = true)
    (h : File.new fs a k st = (.ok f, st₁)) :
    ∃ hsh, arghash a (dictPop k "skip_cache").2 = some hsh ∧
      f = { oid := st.nextOid, init_args := a,
            init_kwargs := (dictPop k "skip_cache").2,
            skip_cache := (dictPop k "skip_cache").1.getD (.bool false),
            hsh := hsh, closeExn := Option.none } ∧
      st₁ = { st with openCount := st.openCount + 1, nextOid := st.nextOid + 1 } := by
  unfold File.new at h
  dsimp only at h
  rcases harg : arghash a (dictPop k "skip_cache").2 with _ | hsh
  · rw [harg] at h
    simp at h
  rw [harg] at h
  dsimp only at h
  rw [hskip] at h
  simp only [Bool.true_or, if_true] at h
  rcases hop : nativeOpen fs a with e | u
  · rw [hop] at h
    simp at h
  rw [hop] at h
  dsimp only at h
  simp only [Prod.mk.injEq, Except.ok.injEq] at h
  exact ⟨hsh, rfl, h.1.symm, h.2.symm⟩

/-- Any successful cache-managed run of `File.__new__` leaves the
returned object retrievable in the cache under its stored key, which is
the `arghash` of the (popped) arguments. -/
theorem new_ok_lookup {fs : FS} {a : List PyVal} {k : List (String × PyVal)} {st : St}
    {f : FileObj} {st₁ : St}
    (hskip : pyTruthy ((dictPop k "skip_cache").1.getD (.bool false)) = false)
    (h : File.new fs a k st = (.ok f, st₁)) :
    st₁.cache.lookup f.hsh = some f ∧
    arghash a (dictPop k "skip_cache").2 = some f.hsh := by
  unfold File.new at h
  dsimp only at h
  rcases harg : arghash a (dictPop k "skip_cache").2 with _ | hsh
  · rw [harg] at h
    simp at h
  rw [harg] at h
  dsimp only at h
  rw [hskip] at h
  simp only [Bool.false_or] at h
  rcases hck : st.cache.containsKey hsh with _ | _
  · -- cache miss: fresh object, then `cache[hsh] = self`
    rw [hck] at h
    simp only [Bool.not_false, if_true] at h
    rcases hop : nativeOpen fs a with e | u
    · rw [hop] at h
      simp at h
    rw [hop] at h
    dsimp only at h
    simp only [Bool.false_eq_true, if_false] at h
    rcases hcs : cacheSet
        { cache := st.cache, nextOid := st.nextOid + 1,
          openCount := st.openCount + 1, closedOids := st.closedOids } hsh
        { oid := st.nextOid, init_args := a,
          init_kwargs := (dictPop k "skip_cache").2,
          skip_cache := (dictPop k "skip_cache").1.getD (.bool false),
          hsh := hsh, closeExn := Option.none } with ⟨r, st₃⟩
    rw [hcs] at h
    rcases r with e | u'
    · dsimp only at h
      simp at h
    dsimp only at h
    simp only [Prod.mk.injEq, Except.ok.injEq] at h
    obtain ⟨hf, hst⟩ := h
    subst hst
    obtain ⟨c1, _, _, _⟩ := cacheSet_lookup (by exact hck) hcs
    rw [← hf]
    exact ⟨c1, rfl⟩
  · -- cache hit: return the stored object
    rw [hck] at h
    simp only [Bool.not_true, Bool.false_eq_true, if_false] at h
    rcases hl : st.cache.lookup hsh with _ | v
    · rw [hl] at h
      simp at h
    rw [hl] at h
    dsimp only at h
    simp only [Prod.mk.injEq, Except.ok.injEq] at h
    obtain ⟨hf, hst⟩ := h
    subst hst
    have hfh : f.hsh = hsh := by rw [← hf]
    have hsome : ((st.cache.touch hsh).data.find? (fun kv => kv.1 == hsh)).isSome := by
      rw [touch_data]
      unfold LRUFileCache.lookup at hl
      rcases hq : st.cache.data.find? (fun kv => kv.1 == hsh) with _ | kv
      · rw [hq] at hl
        cases hl
      · rw [hq]
        rfl
    refine ⟨?_, by rw [hfh]⟩
    show ((((st.cache.touch hsh).data.map
        (fun kv => if kv.1 == hsh then (kv.1, { v with hsh := hsh }) else kv)).find?
          (fun kv => kv.1 == f.hsh))).map Prod.snd = some f
    rw [hfh, ← hf]
    exact lookup_map_replace hsome

/-! ## Keyword-argument dictionary lemmas -/

theorem dictPop_fst_not_mem {k : List (String × PyVal)} {s : String}
    (h : s ∉ k.map Prod.fst) : (dictPop k s).1 = Option.none := by
  unfold dictPop
  dsimp only
  rcases hf : k.find? (fun kv => kv.1 == s) with _ | kv
  · rw [hf]
    rfl
  · exfalso
    have hm := List.mem_of_find?_eq_some hf
    have hk : kv.1 = s := by simpa using List.find?_some hf
    exact h (hk ▸ List.mem_map.mpr ⟨kv, hm, rfl⟩)

theorem dictPop_snd_not_mem {k : List (String × PyVal)} {s : String}
    (h : s ∉ k.map Prod.fst) : (dictPop k s).2 = k := by
  unfold dictPop
  dsimp only
  rw [List.filter_eq_self.mpr]
  intro kv hkv
  simp only [Bool.not_eq_eq_eq_not, Bool.not_true, beq_eq_false_iff_ne, ne_eq]
  intro hks
  exact h (hks ▸ List.mem_map.mpr ⟨kv, hkv, rfl⟩)

theorem dictPop_append_fst {k : List (String × PyVal)} {s : String} {v : PyVal}
    (h : s ∉ k.map Prod.fst) : (dictPop (k ++ [(s, v)]) s).1 = some v := by
  unfold dictPop
  dsimp only
  have hf : k.find? (fun kv => kv.1 == s) = Option.none := by
    have := dictPop_fst_not_mem h
    unfold dictPop at this
    dsimp only at this
    rcases hq : k.find? (fun kv => kv.1 == s) with _ | kv
    · exact hq
    · rw [hq] at this
      cases this
  rw [find?_append_none hf]
  simp [List.find?]

theorem dictPop_append_snd (k : List (String × PyVal)) (s : String) (v : PyVal) :
    (dictPop (k ++ [(s, v)]) s).2 = (dictPop k s).2 := by
  unfold dictPop
  dsimp only
  rw [List.filter_append]
  simp

theorem dictPop_snd_no_key (k : List (String × PyVal)) (s : String) :
    s ∉ ((dictPop k s).2).map Prod.fst := by
  intro h
  obtain ⟨kv, hkv, hk⟩ := List.mem_map.mp h
  have := List.of_mem_filter hkv
  rw [hk] at this
  simp at this

theorem dictSet_absent {k : List (String × PyVal)} {s : String} {v : PyVal}
    (h : s ∉ k.map Prod.fst) : dictSet k s v = k ++ [(s, v)] := by
  unfold dictSet
  rw [if_neg]
  intro hany
  obtain ⟨kv, hkv, hk⟩ := List.any_eq_true.mp hany
  exact h ((by simpa using hk : kv.1 = s) ▸ List.mem_map.mpr ⟨kv, hkv, rfl⟩)

/-! ## Invariant preservation by `File.__new__` -/

theorem healthy_bump {st : St} (hH : Healthy st) (c : Nat) :
    Healthy { st with nextOid := st.nextOid + 1, openCount := c } := by
  obtain ⟨h1, h2, h3, h4, h5⟩ := hH
  refine ⟨h1, h2, ?_, h4, ?_⟩
  · intro kv hkv
    obtain ⟨e1, e2, e3, e4, e5, e6, e7⟩ := h3 kv hkv
    exact ⟨e1, e2, Nat.lt_succ_of_lt e3, e4, e5, e6, e7⟩
  · intro o ho
    exact Nat.lt_succ_of_lt (h5 o ho)

theorem map_replace_eq_self {l : List (String × FileObj)} {k : String} {v' : FileObj}
    (h : ∀ kv ∈ l, kv.1 = k → kv.2 = v') :
    l.map (fun kv => if kv.1 == k then (kv.1, v') else kv) = l := by
  induction l with
  | nil => rfl
  | cons kv rest ih =>
    simp only [List.map_cons]
    rcases hkv : (kv.1 == k) with _ | _
    · simp only [Bool.false_eq_true, if_false]
      rw [ih (fun kv' hkv' => h kv' (List.mem_cons_of_mem _ hkv'))]
    · simp only [if_true]
      have hk : kv.1 = k := by simpa using hkv
      have hv : kv.2 = v' := h kv (List.mem_cons_self _ _) hk
      rw [ih (fun kv' hkv' => h kv' (List.mem_cons_of_mem _ hkv'))]
      have : (kv.1, v') = kv := by
        cases kv
        simp only at hv ⊢
        rw [hv]
      rw [this]

/-- In a successful cache-managed `File.__new__` run, the returned
object is either the stored cache entry (hit) or freshly allocated
(miss). -/
theorem new_oid_cases {fs : FS} {a : List PyVal} {k : List (String × PyVal)} {st : St}
    {f : FileObj} {st₁ : St}
    (hskip : pyTruthy ((dictPop k "skip_cache").1.getD (.bool false)) = false)
    (h : File.new fs a k st = (.ok f, st₁)) :
    (∃ v, st.cache.lookup f.hsh = some v ∧ f.oid = v.oid) ∨ f.oid = st.nextOid := by
  unfold File.new at h
  dsimp only at h
  rcases harg : arghash a (dictPop k "skip_cache").2 with _ | hsh
  · rw [harg] at h
    simp at h
  rw [harg] at h
  dsimp only at h
  rw [hskip] at h
  simp only [Bool.false_or] at h
  rcases hck : st.cache.containsKey hsh with _ | _
  · right
    rw [hck] at h
    simp only [Bool.not_false, if_true] at h
    rcases hop : nativeOpen fs a with e | u
    · rw [hop] at h
      simp at h
    rw [hop] at h
    dsimp only at h
    simp only [Bool.false_eq_true, if_false] at h
    rcases hcs : cacheSet
        { cache := st.cache, nextOid := st.nextOid + 1,
          openCount := st.openCount + 1, closedOids := st.closedOids }
        hsh
        { oid := st.nextOid, init_args := a,
          init_kwargs := (dictPop k "skip_cache").2,
          skip_cache := (dictPop k "skip_cache").1.getD (.bool false),
          hsh := hsh, closeExn := Option.none } with ⟨r, st₃⟩
    rw [hcs] at h
    rcases r with e | u'
    · dsimp only at h
      simp at h
    dsimp only at h
    simp only [Prod.mk.injEq, Except.ok.injEq] at h
    rw [← h.1]
  · left
    rw [hck] at h
    simp only [Bool.not_true, Bool.false_eq_true, if_false] at h
    rcases hl : st.cache.lookup hsh with _ | v
    · rw [hl] at h
      simp at h
    rw [hl] at h
    dsimp only at h
    simp only [Prod.mk.injEq, Except.ok.injEq] at h
    refine ⟨v, ?_, ?_⟩
    · rw [← h.1]
      exact hl
    · rw [← h.1]

/-- Every successful `File.__new__` run preserves the state invariant
and never shrinks the identity allocator or changes the capacity. -/
theorem new_preserves_healthy {fs : FS} {a : List PyVal} {k : List (String × PyVal)}
    {st : St} {f : FileObj} {st₁ : St}
    (hH : Healthy st) (hcap : 1 ≤ st.cache.maxsize)
    (h : File.new fs a k st = (.ok f, st₁)) :
    Healthy st₁ ∧ st₁.cache.maxsize = st.cache.maxsize ∧ st.nextOid ≤ st₁.nextOid := by
  rcases hskip : pyTruthy ((dictPop k "skip_cache").1.getD (.bool false)) with _ | _
  · -- cache-managed run
    unfold File.new at h
    dsimp only at h
    rcases harg : arghash a (dictPop k "skip_cache").2 with _ | hsh
    · rw [harg] at h
      simp at h
    rw [harg] at h
    dsimp only at h
    rw [hskip] at h
    simp only [Bool.false_or] at h
    rcases hck : st.cache.containsKey hsh with _ | _
    · -- miss: fresh object inserted through `cacheSet`
      rw [hck] at h
      simp only [Bool.not_false, if_true] at h
      rcases hop : nativeOpen fs a with e | u
      · rw [hop] at h
        simp at h
      rw [hop] at h
      dsimp only at h
      simp only [Bool.false_eq_true, if_false] at h
      rcases hcs : cacheSet
          { cache := st.cache, nextOid := st.nextOid + 1,
            openCount := st.openCount + 1, closedOids := st.closedOids }
          hsh
          { oid := st.nextOid, init_args := a,
            init_kwargs := (dictPop k "skip_cache").2,
            skip_cache := (dictPop k "skip_cache").1.getD (.bool false),
            hsh := hsh, closeExn := Option.none } with ⟨r, st₃⟩
      rw [hcs] at h
      rcases r with e | u'
      · dsimp only at h
        simp at h
      dsimp only at h
      simp only [Prod.mk.injEq, Except.ok.injEq] at h
      obtain ⟨hH2, hND2, hEnt2, hOid2, hBound2⟩ :=
        healthy_bump hH (st.openCount + 1)
      obtain ⟨st', hcs', hH', hl', hms', hnx', hoc', hclos'⟩ :=
        cacheSet_fresh
          { cache := st.cache, nextOid := st.nextOid + 1,
            openCount := st.openCount + 1, closedOids := st.closedOids }
          hsh
          { oid := st.nextOid, init_args := a,
            init_kwargs := (dictPop k "skip_cache").2,
            skip_cache := (dictPop k "skip_cache").1.getD (.bool false),
            hsh := hsh, closeExn := Option.none }
          ⟨hH2, hND2, hEnt2, hOid2, hBound2⟩ hcap hck rfl rfl
          (Nat.lt_succ_self _)
          (fun hc => absurd (hH.2.2.2.2 _ hc) (Nat.lt_irrefl _))
          (fun hc => by
            obtain ⟨kv, hkv, hkvo⟩ := List.mem_map.mp hc
            exact absurd (hkvo ▸ (hH.2.2.1 kv hkv).2.2.1) (Nat.lt_irrefl _))
          harg hskip (dictPop_snd_no_key k "skip_cache")
      rw [hcs] at hcs'
      have hst₃ : st₃ = st' := by
        have := congrArg Prod.snd hcs'
        simpa using this
      rw [← h.2, hst₃]
      refine ⟨hH', by rw [hms'], ?_⟩
      rw [hnx']
      exact Nat.le_succ _
    · -- hit: the stored object is returned and its `hsh` re-assigned
      rw [hck] at h
      simp only [Bool.not_true, Bool.false_eq_true, if_false] at h
      rcases hl : st.cache.lookup hsh with _ | v
      · rw [hl] at h
        simp at h
      rw [hl] at h
      dsimp only at h
      simp only [Prod.mk.injEq, Except.ok.injEq] at h
      obtain ⟨hND, hPerm, hEnt, hOid, hBound⟩ := hH
      have hmem := lookup_mem hl
      have hvh : v.hsh = hsh := (hEnt _ hmem).1
      have hv' : ({ v with hsh := hsh } : FileObj) = v := by
        cases v
        simp only at hvh ⊢
        rw [hvh]
      have hdata : (st.cache.touch hsh).data.map
          (fun kv => if kv.1 == hsh then (kv.1, ({ v with hsh := hsh} : FileObj)) else kv)
            = st.cache.data := by
        rw [touch_data]
        apply map_replace_eq_self
        intro kv hkv hk
        obtain ⟨k1, v1⟩ := kv
        simp only at hk
        subst hk
        have hfind := lookup_of_mem_nodup hND hkv
        unfold LRUFileCache.lookup at hl
        rw [hfind] at hl
        injection hl with hv2
        show v1 = _
        rw [hv2]
        exact hv'.symm
      have hkord : hsh ∈ st.cache.order := by
        have : hsh ∈ st.cache.data.map Prod.fst :=
          List.mem_map.mpr ⟨(hsh, v), hmem, rfl⟩
        exact hPerm.mem_iff.mpr this
      rw [← h.2]
      refine ⟨⟨?_, ?_, ?_, ?_, ?_⟩, rfl, Nat.le_refl _⟩
      · dsimp only
        rw [hdata]
        exact hND
      · dsimp only
        rw [hdata]
        exact (touch_perm hkord).trans hPerm
      · intro kv hkv
        dsimp only at hkv
        rw [hdata] at hkv
        exact hEnt kv hkv
      · dsimp only
        rw [hdata]
        exact hOid
      · exact hBound
  · -- bypass: the cache is untouched
    obtain ⟨hsh, harg, hf, hst⟩ := new_skip_spec hskip h
    rw [hst]
    exact ⟨healthy_bump hH _, rfl, Nat.le_succ _⟩

/-! ## Claim theorems -/

/-- **C1**: constructing `File` with the same arguments twice, without
an intervening eviction or close (the second run starts in the state
the first one left), returns the identical handle object both times —
the second run yields the very object of the first — and the second
construction performs no native open (the open counter is unchanged). -/
theorem acquire_twice_identical (fs : FS) (a : List PyVal)
    (k : List (String × PyVal)) (st : St) (f₁ : FileObj) (st₁ : St)
    (hskip : pyTruthy ((dictPop k "skip_cache").1.getD (.bool false)) = false)
    (h1 : File.new fs a k st = (.ok f₁, st₁)) :
    ∃ st₂, File.new fs a k st₁ = (.ok f₁, st₂) ∧ st₂.openCount = st₁.openCount := by
  obtain ⟨hl, harg⟩ := new_ok_lookup hskip h1
  exact ⟨_, new_hit fs a k st₁ hskip harg hl, rfl⟩

theorem acquire_twice_identical_witness :
    pyTruthy ((dictPop ([] : List (String × PyVal)) "skip_cache").1.getD (.bool false))
        = false ∧
    File.new fsEx [.str "a.h5"] [] st0 = (.ok f1ex, st1ex) ∧
    ∃ st₂, File.new fsEx [.str "a.h5"] [] st1ex = (.ok f1ex, st₂) ∧
      st₂.openCount = st1ex.openCount :=
  ⟨rfl, rfl, acquire_twice_identical fsEx [.str "a.h5"] [] st0 f1ex st1ex rfl rfl⟩

/-- **C10**: when any constructor argument is not JSON-serializable,
`File.__new__` raises `TypeError` from the `arghash` step and the whole
state — cache contents, recency, open attempts, allocations — is left
exactly as it was: no native open is attempted and no cache entry is
inserted or evicted. -/
theorem typeerror_before_open (fs : FS) (a : List PyVal)
    (k : List (String × PyVal)) (st : St)
    (h : arghash a (dictPop k "skip_cache").2 = Option.none) :
    File.new fs a k st = (.error .typeError, st) := by
  unfold File.new
  dsimp only
  rw [h]

theorem typeerror_before_open_witness :
    arghash [.obj 0] (dictPop ([] : List (String × PyVal)) "skip_cache").2
        = Option.none ∧
    File.new fsEx [.obj 0] [] st0 = (.error .typeError, st0) :=
  ⟨rfl, typeerror_before_open fsEx [.obj 0] [] st0 rfl⟩

/-- **C6** (divergence witness for the code bug): after `File('a.h5')`
is created and cached, `File.close` does close the native resource (the
object's identity is recorded closed), yet the cache entry for the
closed handle is still present when `close` returns — the loop
`if cache[key] == self.hsh: del cache[key]` compares the cached `File`
object with the integer hash, which is never true, so nothing is ever
removed, contradicting the claim (and the method's own docstring). -/
theorem close_does_not_remove_cache_entry :
    File.close f1ex st1ex = (.ok (), st2ex) ∧
    st2ex.closedOids = [f1ex.oid] ∧
    st2ex.cache.lookup f1ex.hsh = some f1ex ∧
    st2ex.cache.data.length = 1 :=
  ⟨rfl, rfl, rfl, rfl⟩

/-- **C5** (amended): on every eviction a close of the evicted value is
attempted; when the native close succeeds it is recorded, and when the
close attempt raises `AttributeError` (in particular when the value
does not define `close`) the exception is swallowed and the eviction
still succeeds; but any other close failure propagates out of
`popitem`. -/
theorem popitem_close_behavior (st : St) (k : String) (v : FileObj)
    (h1 : st.cache.order.head? = some k)
    (h2 : st.cache.lookup k = some v) :
    (v.closeExn = Option.none →
      ∃ st', LRUFileCache.popitem st = (.ok (k, v), st') ∧ v.oid ∈ st'.closedOids) ∧
    (v.closeExn = some .attributeError →
      ∃ st', LRUFileCache.popitem st = (.ok (k, v), st')) ∧
    (∀ e, v.closeExn = some e → e ≠ .attributeError →
      ∃ st', LRUFileCache.popitem st = (.error e, st')) := by
  rcases ho : st.cache.order with _ | ⟨k₀, tl⟩
  · rw [ho] at h1
    cases h1
  rw [ho] at h1
  have hk : k₀ = k := by simpa using h1
  rw [hk] at ho
  refine ⟨?_, ?_, ?_⟩
  · intro hcl
    refine ⟨{ cache := closeScan (st.cache.delitem k) v.hsh,
              nextOid := st.nextOid, openCount := st.openCount,
              closedOids := v.oid :: st.closedOids }, ?_, List.mem_cons_self _ _⟩
    simp only [LRUFileCache.popitem, ho, h2, File.close, hcl]
  · intro hcl
    refine ⟨{ st with cache := st.cache.delitem k }, ?_⟩
    simp only [LRUFileCache.popitem, ho, h2, File.close, hcl]
  · intro e hcl hne
    refine ⟨{ st with cache := st.cache.delitem k }, ?_⟩
    cases e
    · exact absurd rfl hne
    all_goals simp only [LRUFileCache.popitem, ho, h2, File.close, hcl]

theorem popitem_close_behavior_witness :
    (∃ st', LRUFileCache.popitem stOk = (.ok ("K0", okFile), st') ∧
      okFile.oid ∈ st'.closedOids) ∧
    (∃ st', LRUFileCache.popitem stBad = (.error .oserror, st')) :=
  ⟨(popitem_close_behavior stOk "K0" okFile rfl rfl).1 rfl,
   (popitem_close_behavior stBad "K0" badFile rfl rfl).2.2 .oserror rfl (by decide)⟩

/-- **C5** (counterexample to the claim as stated): a cache insertion
whose triggered eviction meets a value with a failing native close
raises (`OSError` here) instead of swallowing the condition — the
`except AttributeError` in `LRUFileCache.popitem` does not cover it, so
the eviction and the triggering insertion do fail. -/
theorem eviction_close_failure_propagates :
    ∃ st', cacheSet stBad "K1" newFile = (.error .oserror, st') :=
  ⟨_, rfl⟩

/-- **C3**: the serialized form of every proxy consists only of
descriptor data.  `Dataset.__getstate__` is exactly the three
descriptor strings and is independent of the wrapped live handle;
`File.__getnewargs_ex__` is exactly the stored constructor arguments
plus the `skip_cache` flag and is independent of the object identity,
the cache key (`hsh`), and the native-close behaviour;
the pickled `Group` is its internal name plus the root `File`'s
pickled descriptor, with the same independence. -/
theorem serialized_forms_descriptor_only :
    (∀ d : DatasetObj, Dataset.getstate d =
      [("file_name", .str d.file_name), ("file_mode", .str d.file_mode),
       ("dataset_name", .str d.dataset_name)]) ∧
    (∀ d₁ d₂ : DatasetObj, d₁.file_name = d₂.file_name →
      d₁.file_mode = d₂.file_mode → d₁.dataset_name = d₂.dataset_name →
      Dataset.getstate d₁ = Dataset.getstate d₂) ∧
    (∀ f : FileObj, File.getnewargs_ex f =
      (f.init_args, dictSet f.init_kwargs "skip_cache" f.skip_cache)) ∧
    (∀ f₁ f₂ : FileObj, f₁.init_args = f₂.init_args →
      f₁.init_kwargs = f₂.init_kwargs → f₁.skip_cache = f₂.skip_cache →
      File.getnewargs_ex f₁ = File.getnewargs_ex f₂) ∧
    (∀ g₁ g₂ : GroupObj, g₁.name = g₂.name →
      g₁.file_info.init_args = g₂.file_info.init_args →
      g₁.file_info.init_kwargs = g₂.file_info.init_kwargs →
      g₁.file_info.skip_cache = g₂.file_info.skip_cache →
      Group.pickled g₁ = Group.pickled g₂) := by
  refine ⟨fun d => rfl, ?_, fun f => rfl, ?_, ?_⟩
  · intro d₁ d₂ h1 h2 h3
    unfold Dataset.getstate
    rw [h1, h2, h3]
  · intro f₁ f₂ h1 h2 h3
    unfold File.getnewargs_ex
    rw [h1, h2, h3]
  · intro g₁ g₂ h0 h1 h2 h3
    unfold Group.pickled File.getnewargs_ex
    rw [h0, h1, h2, h3]

theorem serialized_forms_descriptor_only_witness :
    Dataset.getstate staleDS =
      [("file_name", .str "a.h5"), ("file_mode", .str "r"),
       ("dataset_name", .str "d")] ∧
    Dataset.getstate staleDS =
      Dataset.getstate { staleDS with
        dataset := { fileOid := 0, dsName := "other", data := 0 } } ∧
    File.getnewargs_ex f1ex =
      (f1ex.init_args, dictSet f1ex.init_kwargs "skip_cache" f1ex.skip_cache) ∧
    File.getnewargs_ex f1ex =
      File.getnewargs_ex
        { f1ex with oid := 77, hsh := "stale-key", closeExn := some .oserror } :=
  ⟨serialized_forms_descriptor_only.1 staleDS,
   serialized_forms_descriptor_only.2.1 staleDS
     { staleDS with dataset := { fileOid := 0, dsName := "other", data := 0 } }
     rfl rfl rfl,
   serialized_forms_descriptor_only.2.2.1 f1ex,
   serialized_forms_descriptor_only.2.2.2.1 f1ex
     { f1ex with oid := 77, hsh := "stale-key", closeExn := some .oserror }
     rfl rfl rfl⟩

/-- **C9**: `skip_cache` is popped from the keyword arguments before the
cache key is computed, so the key is the same whether the flag is
absent, `False`, or `True`: after `File(path)`, the construction
`File(path, skip_cache=False)` resolves to the same cache entry (the
identical object, with no further native open), and a bypassed
`File(path, skip_cache=True)` run stores the same key value in its
`hsh` attribute as the cached handle. -/
theorem skip_cache_not_part_of_key (fs : FS) (a : List PyVal)
    (k : List (String × PyVal)) (st stX : St) (f b : FileObj) (st₁ st₃ : St)
    (hnk : "skip_cache" ∉ k.map Prod.fst)
    (h1 : File.new fs a k st = (.ok f, st₁))
    (h3 : File.new fs a (k ++ [("skip_cache", .bool true)]) stX = (.ok b, st₃)) :
    (∃ st₂, File.new fs a (k ++ [("skip_cache", .bool false)]) st₁ = (.ok f, st₂) ∧
      st₂.openCount = st₁.openCount) ∧
    b.hsh = f.hsh := by
  have hskip1 : pyTruthy ((dictPop k "skip_cache").1.getD (.bool false)) = false := by
    rw [dictPop_fst_not_mem hnk]
    rfl
  obtain ⟨hl, harg⟩ := new_ok_lookup hskip1 h1
  constructor
  · have hskip2 : pyTruthy
        ((dictPop (k ++ [("skip_cache", .bool false)]) "skip_cache").1.getD
          (.bool false)) = false := by
      rw [dictPop_append_fst hnk]
      rfl
    have harg2 : arghash a (dictPop (k ++ [("skip_cache", .bool false)]) "skip_cache").2
        = some f.hsh := by
      rw [dictPop_append_snd]
      exact harg
    exact ⟨_, new_hit fs a _ st₁ hskip2 harg2 hl, rfl⟩
  · have hskip3 : pyTruthy
        ((dictPop (k ++ [("skip_cache", .bool true)]) "skip_cache").1.getD
          (.bool false)) = true := by
      rw [dictPop_append_fst hnk]
      rfl
    obtain ⟨hsh3, harg3, hb, hstX⟩ := new_skip_spec hskip3 h3
    have harg3' : arghash a (dictPop k "skip_cache").2 = some hsh3 := by
      rw [← dictPop_append_snd k "skip_cache" (.bool true)]
      exact harg3
    rw [hb]
    have hinj := harg.symm.trans harg3'
    injection hinj with h'
    exact h'.symm

theorem skip_cache_not_part_of_key_witness :
    ("skip_cache" ∉ ([] : List (String × PyVal)).map Prod.fst) ∧
    File.new fsEx [.str "a.h5"] [] st0 = (.ok f1ex, st1ex) ∧
    File.new fsEx [.str "a.h5"] ([] ++ [("skip_cache", .bool true)]) st0
        = (.ok bSkipEx, stSkipEx) ∧
    ((∃ st₂, File.new fsEx [.str "a.h5"] ([] ++ [("skip_cache", .bool false)]) st1ex
        = (.ok f1ex, st₂) ∧ st₂.openCount = st1ex.openCount) ∧
      bSkipEx.hsh = f1ex.hsh) :=
  ⟨by decide, rfl, rfl,
   skip_cache_not_part_of_key fsEx [.str "a.h5"] [] st0 st0 f1ex bSkipEx st1ex stSkipEx
     (by decide) rfl rfl⟩

/-- **C4**: unpickling a `File` routes through the memoized factory with
exactly the original constructor arguments plus the `skip_cache` flag
(`File.unpickle` is `File.__new__` applied to `__getnewargs_ex__`), so
unpickling a non-bypassed `File` whose descriptor is live in the cache
returns the identical cached object and performs no second native
open. -/
theorem unpickle_returns_cached_handle (fs : FS) (a : List PyVal)
    (k : List (String × PyVal)) (st : St) (f : FileObj) (st₁ : St)
    (hH : Healthy st) (hcap : 1 ≤ st.cache.maxsize)
    (hskip : pyTruthy ((dictPop k "skip_cache").1.getD (.bool false)) = false)
    (h1 : File.new fs a k st = (.ok f, st₁)) :
    ∃ st₂, File.unpickle fs (File.getnewargs_ex f) st₁ = (.ok f, st₂) ∧
      st₂.openCount = st₁.openCount := by
  obtain ⟨hl, harg⟩ := new_ok_lookup hskip h1
  obtain ⟨hH₁, hms₁, hnx₁⟩ := new_preserves_healthy hH hcap h1
  have hmem := lookup_mem hl
  obtain ⟨e1, e2, e3, e4, e5, e6, e7⟩ := hH₁.2.2.1 _ hmem
  -- the pickled keyword arguments: the stored ones plus the flag
  have hset : dictSet f.init_kwargs "skip_cache" f.skip_cache
      = f.init_kwargs ++ [("skip_cache", f.skip_cache)] := dictSet_absent e7
  have hpop2 : (dictPop (f.init_kwargs ++ [("skip_cache", f.skip_cache)])
      "skip_cache").1 = some f.skip_cache := dictPop_append_fst e7
  have hskip2 : pyTruthy ((dictPop (f.init_kwargs ++ [("skip_cache", f.skip_cache)])
      "skip_cache").1.getD (.bool false)) = false := by
    rw [hpop2]
    exact e6
  have harg2 : arghash f.init_args
      ((dictPop (f.init_kwargs ++ [("skip_cache", f.skip_cache)]) "skip_cache").2)
        = some f.hsh := by
    rw [dictPop_append_snd, dictPop_snd_not_mem e7]
    exact e5
  have := new_hit fs f.init_args (f.init_kwargs ++ [("skip_cache", f.skip_cache)])
    st₁ hskip2 harg2 hl
  have hh : File.unpickle fs (File.getnewargs_ex f) st₁ =
      (.ok f,
       { st₁ with cache :=
           { st₁.cache.touch f.hsh with
             data := (st₁.cache.touch f.hsh).data.map
               (fun kv => if kv.1 == f.hsh then (kv.1, f) else kv) } }) := by
    unfold File.unpickle File.getnewargs_ex
    dsimp only
    rw [hset]
    exact this
  exact ⟨_, hh, rfl⟩

theorem unpickle_returns_cached_handle_witness :
    Healthy st0 ∧ 1 ≤ st0.cache.maxsize ∧
    File.new fsEx [.str "a.h5"] [] st0 = (.ok f1ex, st1ex) ∧
    ∃ st₂, File.unpickle fsEx (File.getnewargs_ex f1ex) st1ex = (.ok f1ex, st₂) ∧
      st₂.openCount = st1ex.openCount :=
  ⟨by decide, by decide, rfl,
   unpickle_returns_cached_handle fsEx [.str "a.h5"] [] st0 f1ex st1ex
     (by decide) (by decide) rfl rfl⟩

/-- **C7**: a `skip_cache=True` construction always opens a fresh
native handle (one open attempt, a freshly allocated identity), never
inserts it into the cache (the cache is exactly unchanged and no cached
entry is that object), and a subsequent cached construction with the
same descriptor returns an object distinct from the bypassed one. -/
theorem skip_cache_bypasses_cache (fs : FS) (a : List PyVal)
    (k : List (String × PyVal)) (st : St) (f g : FileObj) (st₁ st₂ : St)
    (hH : Healthy st)
    (hskip : pyTruthy ((dictPop k "skip_cache").1.getD (.bool false)) = true)
    (h1 : File.new fs a k st = (.ok f, st₁))
    (h2 : File.new fs a ((dictPop k "skip_cache").2) st₁ = (.ok g, st₂)) :
    st₁.cache = st.cache ∧
    st₁.openCount = st.openCount + 1 ∧
    f.oid = st.nextOid ∧
    (∀ kv ∈ st₁.cache.data, kv.2.oid ≠ f.oid) ∧
    g.oid ≠ f.oid := by
  obtain ⟨hsh, harg, hf, hst⟩ := new_skip_spec hskip h1
  subst hst
  have hfo : f.oid = st.nextOid := by rw [hf]
  refine ⟨rfl, rfl, hfo, ?_, ?_⟩
  · intro kv hkv
    have hlt := (hH.2.2.1 kv hkv).2.2.1
    rw [hfo]
    omega
  · have hskip2 : pyTruthy
        ((dictPop ((dictPop k "skip_cache").2) "skip_cache").1.getD
          (.bool false)) = false := by
      rw [dictPop_fst_not_mem (dictPop_snd_no_key k "skip_cache")]
      rfl
    rcases new_oid_cases hskip2 h2 with ⟨v, hlv, hgo⟩ | hgo
    · have hmem := lookup_mem hlv
      have hv : v.oid < st.nextOid := (hH.2.2.1 _ hmem).2.2.1
      rw [hgo, hfo]
      omega
    · rw [hgo, hfo]
      show st.nextOid + 1 ≠ st.nextOid
      omega

theorem skip_cache_bypasses_cache_witness :
    Healthy st0 ∧
    pyTruthy ((dictPop [("skip_cache", PyVal.bool true)] "skip_cache").1.getD
      (.bool false)) = true ∧
    File.new fsEx [.str "a.h5"] [("skip_cache", .bool true)] st0
        = (.ok bSkipEx, stSkipEx) ∧
    File.new fsEx [.str "a.h5"]
        ((dictPop [("skip_cache", PyVal.bool true)] "skip_cache").2) stSkipEx
        = (.ok g7ex, run7.2) ∧
    (stSkipEx.cache = st0.cache ∧
     stSkipEx.openCount = st0.openCount + 1 ∧
     bSkipEx.oid = st0.nextOid ∧
     (∀ kv ∈ stSkipEx.cache.data, kv.2.oid ≠ bSkipEx.oid) ∧
     g7ex.oid ≠ bSkipEx.oid) :=
  ⟨by decide, rfl, rfl, rfl,
   skip_cache_bypasses_cache fsEx [.str "a.h5"] [("skip_cache", .bool true)]
     st0 bSkipEx g7ex stSkipEx run7.2 (by decide) rfl rfl rfl⟩

/-- **C8** (amended): two cache-managed acquisitions never alias when
their serialized `arghash` keys differ — if the keys of the two
descriptors are distinct, the returned handles are distinct objects.
(Distinct descriptors whose arguments serialize to the same JSON text,
such as a tuple versus a list, do alias; see the counterexample.) -/
theorem distinct_keys_never_alias (fs : FS) (a₁ a₂ : List PyVal)
    (k₁ k₂ : List (String × PyVal)) (st : St) (f₁ f₂ : FileObj) (st₁ st₂ : St)
    (hH : Healthy st) (hcap : 1 ≤ st.cache.maxsize)
    (hskip₁ : pyTruthy ((dictPop k₁ "skip_cache").1.getD (.bool false)) = false)
    (hskip₂ : pyTruthy ((dictPop k₂ "skip_cache").1.getD (.bool false)) = false)
    (h1 : File.new fs a₁ k₁ st = (.ok f₁, st₁))
    (h2 : File.new fs a₂ k₂ st₁ = (.ok f₂, st₂))
    (hne : arghash a₁ (dictPop k₁ "skip_cache").2
        ≠ arghash a₂ (dictPop k₂ "skip_cache").2) :
    f₁.oid ≠ f₂.oid := by
  obtain ⟨hl₁, harg₁⟩ := new_ok_lookup hskip₁ h1
  obtain ⟨hH₁, hms₁, hnx₁⟩ := new_preserves_healthy hH hcap h1
  obtain ⟨hl₂, harg₂⟩ := new_ok_lookup hskip₂ h2
  have hhne : f₁.hsh ≠ f₂.hsh := by
    intro hh
    exact hne (by rw [harg₁, harg₂, hh])
  rcases new_oid_cases hskip₂ h2 with ⟨v, hlv, hgo⟩ | hgo
  · have hm₁ := lookup_mem hl₁
    have hm₂ := lookup_mem hlv
    intro heq
    have hoeq : (f₁.hsh, f₁).2.oid = (f₂.hsh, v).2.oid := by
      show f₁.oid = v.oid
      rw [heq, hgo]
    have hinj := List.inj_on_of_nodup_map hH₁.2.2.2.1 hm₁ hm₂ hoeq
    have : f₁.hsh = f₂.hsh := congrArg Prod.fst hinj
    exact hhne this
  · intro heq
    have hm₁ := lookup_mem hl₁
    have hlt := (hH₁.2.2.1 _ hm₁).2.2.1
    rw [heq, hgo] at hlt
    exact Nat.lt_irrefl _ hlt

theorem distinct_keys_never_alias_witness :
    Healthy st0 ∧ 1 ≤ st0.cache.maxsize ∧
    File.new fsEx [.str "a.h5"] [] st0 = (.ok f1ex, st1ex) ∧
    File.new fsEx [.str "a.h5"] [("mode", .str "r")] st1ex = (.ok fBex, runB.2) ∧
    arghash [.str "a.h5"] (dictPop ([] : List (String × PyVal)) "skip_cache").2
        ≠ arghash [.str "a.h5"] (dictPop [("mode", PyVal.str "r")] "skip_cache").2 ∧
    f1ex.oid ≠ fBex.oid :=
  ⟨by decide, by decide, rfl, rfl, by decide,
   distinct_keys_never_alias fsEx [.str "a.h5"] [.str "a.h5"] []
     [("mode", .str "r")] st0 f1ex fBex st1ex runB.2
     (by decide) (by decide) rfl rfl rfl rfl (by decide)⟩

/-- **C8** (counterexample to the claim as stated): the distinct
descriptors `File('a.h5', x=(1,))` and `File('a.h5', x=[1])` — a tuple
versus a list, different Python values — serialize to the same JSON
text, so the second acquisition returns the very handle cached by the
first (same object identity, no second native open): distinct
descriptors can alias one native handle. -/
theorem json_collision_aliases :
    ([(("x" : String), PyVal.tuple [.int 1])]
        ≠ [(("x" : String), PyVal.list [.int 1])]) ∧
    File.new fsEx [.str "a.h5"] [("x", .tuple [.int 1])] st0 = (.ok fTex, runT.2) ∧
    File.new fsEx [.str "a.h5"] [("x", .list [.int 1])] runT.2 = (.ok fLex, runL.2) ∧
    fLex.oid = fTex.oid ∧
    runL.2.openCount = runT.2.openCount :=
  ⟨by
    intro h
    injection h with h1 _
    injection h1 with _ h2
    exact PyVal.noConfusion h2,
   rfl, rfl, rfl, rfl⟩

/-- Forward characterization of a cache-miss `File.__new__` run, given
the outcome of the final insertion. -/
theorem new_miss_eq {fs : FS} {a : List PyVal} {k : List (String × PyVal)} {st : St}
    {hsh : String} {st₃ : St} {u : Unit}
    (hskip : pyTruthy ((dictPop k "skip_cache").1.getD (.bool false)) = false)
    (harg : arghash a (dictPop k "skip_cache").2 = some hsh)
    (hmiss : st.cache.containsKey hsh = false)
    (hop : nativeOpen fs a = .ok ())
    (hcs : cacheSet
        { cache := st.cache, nextOid := st.nextOid + 1,
          openCount := st.openCount + 1, closedOids := st.closedOids } hsh
        { oid := st.nextOid, init_args := a,
          init_kwargs := (dictPop k "skip_cache").2,
          skip_cache := (dictPop k "skip_cache").1.getD (.bool false),
          hsh := hsh, closeExn := Option.none } = (.ok u, st₃)) :
    File.new fs a k st =
      (.ok { oid := st.nextOid, init_args := a,
             init_kwargs := (dictPop k "skip_cache").2,
             skip_cache := (dictPop k "skip_cache").1.getD (.bool false),
             hsh := hsh, closeExn := Option.none }, st₃) := by
  unfold File.new
  dsimp only
  rw [harg, hskip]
  dsimp only
  rw [hmiss]
  simp only [Bool.not_false, Bool.false_or, if_true, hop, Bool.false_eq_true,
    if_false, hcs]

/-- **C2** (amended): every attribute access that is handled by the
dynamic fallback `Dataset.__getattr__` (i.e. any name that is not one
of the proxy's own instance attributes), and every element access,
first re-acquires the root file through the memoized `File` factory
and re-looks-up the dataset's path before delegating; consequently the
access succeeds and returns the delegated payload even when the handle
that produced the proxy has been evicted and closed (its key is absent
from the cache), provided the underlying path can still be opened —
exactly one fresh native open occurs. -/
theorem dataset_access_reacquires (fs : FS) (d : DatasetObj) (name : String)
    (item : PyVal) (st : St) (entries : List (String × Int)) (payload : Int)
    (hH : Healthy st) (hcap : 1 ≤ st.cache.maxsize)
    (hmiss : st.cache.containsKey (rootKey d) = false)
    (hfs : fsLookup fs d.file_name = some entries)
    (hds : (entries.find? (fun e => e.1 == d.dataset_name)).map Prod.snd
        = some payload) :
    (∃ st', Dataset.getattr fs d name st = (.ok (.int payload), st') ∧
      st'.openCount = st.openCount + 1) ∧
    (∃ st', Dataset.getitem fs d item st = (.ok (.int payload), st') ∧
      st'.openCount = st.openCount + 1) := by
  have hskip0 : pyTruthy ((dictPop [("mode", PyVal.str d.file_mode)]
      "skip_cache").1.getD (.bool false)) = false := rfl
  have harg0 : arghash [.str d.file_name]
      ((dictPop [("mode", PyVal.str d.file_mode)] "skip_cache").2)
        = some (rootKey d) := rfl
  have hop : nativeOpen fs [.str d.file_name] = .ok () := by
    simp only [nativeOpen, List.head?_cons, hfs, Option.isSome_some, if_true]
  obtain ⟨st₃, hcs, hH₃, hl₃, hms₃, hnx₃, hoc₃, hclos₃⟩ :=
    cacheSet_fresh
      { cache := st.cache, nextOid := st.nextOid + 1,
        openCount := st.openCount + 1, closedOids := st.closedOids }
      (rootKey d)
      { oid := st.nextOid, init_args := [.str d.file_name],
        init_kwargs := (dictPop [("mode", PyVal.str d.file_mode)] "skip_cache").2,
        skip_cache := (dictPop [("mode", PyVal.str d.file_mode)]
          "skip_cache").1.getD (.bool false),
        hsh := rootKey d, closeExn := Option.none }
      (healthy_bump hH _) hcap hmiss rfl rfl (Nat.lt_succ_self _)
      (fun hc => absurd (hH.2.2.2.2 _ hc) (Nat.lt_irrefl _))
      (fun hc => by
        obtain ⟨kv, hkv, hkvo⟩ := List.mem_map.mp hc
        exact absurd (hkvo ▸ (hH.2.2.1 kv hkv).2.2.1) (Nat.lt_irrefl _))
      harg0 hskip0 (dictPop_snd_no_key _ "skip_cache")
  have hnew := new_miss_eq hskip0 harg0 hmiss hop hcs
  have hnotin : st.nextOid ∉ st₃.closedOids := by
    intro hc
    rcases hclos₃ _ hc with h' | h'
    · exact absurd (hH.2.2.2.2 _ h') (Nat.lt_irrefl _)
    · obtain ⟨kv, hkv, hkvo⟩ := List.mem_map.mp h'
      exact absurd (hkvo ▸ (hH.2.2.1 kv hkv).2.2.1) (Nat.lt_irrefl _)
  have hget : File.getitem fs
      { oid := st.nextOid, init_args := [.str d.file_name],
        init_kwargs := (dictPop [("mode", PyVal.str d.file_mode)] "skip_cache").2,
        skip_cache := (dictPop [("mode", PyVal.str d.file_mode)]
          "skip_cache").1.getD (.bool false),
        hsh := rootKey d, closeExn := Option.none } d.dataset_name st₃ = .ok
      { file_name := d.file_name, file_mode := d.file_mode,
        dataset_name := d.dataset_name,
        dataset := { fileOid := st.nextOid, dsName := d.dataset_name,
                     data := payload } } := by
    unfold File.getitem
    rw [if_neg hnotin]
    have hfn : fileNameOf
        { oid := st.nextOid, init_args := [.str d.file_name],
          init_kwargs := (dictPop [("mode", PyVal.str d.file_mode)] "skip_cache").2,
          skip_cache := (dictPop [("mode", PyVal.str d.file_mode)]
            "skip_cache").1.getD (.bool false),
          hsh := rootKey d, closeExn := Option.none } = d.file_name := rfl
    rw [hfn, hfs]
    dsimp only
    rw [hds]
    rfl
  have hna : nativeDSGetattr st₃
      { fileOid := st.nextOid, dsName := d.dataset_name, data := payload } name
        = .ok (.int payload) := by
    unfold nativeDSGetattr
    rw [if_neg hnotin]
  have hni : nativeDSGetitem st₃
      { fileOid := st.nextOid, dsName := d.dataset_name, data := payload } item
        = .ok (.int payload) := by
    unfold nativeDSGetitem
    rw [if_neg hnotin]
  constructor
  · refine ⟨st₃, ?_, hoc₃⟩
    unfold Dataset.getattr
    rw [hnew]
    dsimp only
    rw [hget]
    dsimp only
    rw [hna]
  · refine ⟨st₃, ?_, hoc₃⟩
    unfold Dataset.getitem
    rw [hnew]
    dsimp only
    rw [hget]
    dsimp only
    rw [hni]

theorem dataset_access_reacquires_witness :
    Healthy stEvicted ∧ 1 ≤ stEvicted.cache.maxsize ∧
    stEvicted.cache.containsKey (rootKey staleDS) = false ∧
    fsLookup fsEx staleDS.file_name = some [("d", 7)] ∧
    (([("d", 7)] : List (String × Int)).find?
        (fun e => e.1 == staleDS.dataset_name)).map Prod.snd = some 7 ∧
    ((∃ st', Dataset.getattr fsEx staleDS "shape" stEvicted
        = (.ok (.int 7), st') ∧ st'.openCount = stEvicted.openCount + 1) ∧
     (∃ st', Dataset.getitem fsEx staleDS (.int 0) stEvicted
        = (.ok (.int 7), st') ∧ st'.openCount = stEvicted.openCount + 1)) :=
  ⟨by decide, by decide, rfl, rfl, rfl,
   dataset_access_reacquires fsEx staleDS "shape" (.int 0) stEvicted
     [("d", 7)] 7 (by decide) (by decide) rfl rfl rfl⟩

/-- **C2** (counterexample to the claim as stated): accessing the
instance attribute `file_name` of a `Dataset` proxy does not re-acquire
the root file — the access returns directly with the state completely
unchanged (no native open is attempted), even though any acquisition
through the memoized factory from this state (whose cache is empty)
performs a native open attempt.  `Dataset.__getattr__` is only a
fallback for names missing from the instance dictionary, so not every
attribute access re-acquires the root. -/
theorem instance_attribute_access_skips_reacquisition :
    Dataset.attributeAccess fsEx staleDS "file_name" stEvicted
        = (.ok (.pv (.str "a.h5")), stEvicted) ∧
    stEvicted.openCount = 5 ∧
    (File.new fsEx [.str staleDS.file_name]
        [("mode", .str staleDS.file_mode)] stEvicted).2.openCount = 6 :=
  ⟨rfl, rfl, rfl⟩
